import Mathlib

/-!
Verification development for the LINE webhook order-intake bot (`app.py`).

The Python source is shallowly embedded: every definition below mirrors a
function of `app.py` (the doc comment of each definition names the Python
function it embeds).  Sheets are modelled as lists of structured rows, the
per-user pending-confirmation store as an association list, and ambient
time (wall-clock strings, the 30-day query cutoff) as explicit parameters.
Python strings are modelled as Lean `String` (a list of unicode scalars,
matching Python's sequence-of-code-points view for the alphabets the bot
uses: ASCII, CJK ideographs and fullwidth punctuation).
-/

namespace LineBot

/-- Python `str.strip()` whitespace class, restricted to the whitespace
characters that can actually occur in the bot's data (ASCII whitespace and
the ideographic space U+3000). -/
def pyIsSpace (c : Char) : Bool :=
  c = ' ' || c = '\t' || c = '\n' || c = '\r' || c = '\x0b' || c = '\x0c' || c.val = 0x3000

/-- `str.strip()` on a character list. -/
def pstripList (cs : List Char) : List Char :=
  ((cs.dropWhile pyIsSpace).reverse.dropWhile pyIsSpace).reverse

/-- Python `str.strip()`. -/
def pstrip (s : String) : String := ⟨pstripList s.toList⟩

/-- ASCII lowercasing, as Python `str.lower()` acts on the ASCII letters
(the only cased characters appearing in the bot's data). -/
def pyLowerChar (c : Char) : Char :=
  if 'A' ≤ c && c ≤ 'Z' then Char.ofNat (c.toNat + 32) else c

/-- Python `str.lower()`. -/
def pyLower (s : String) : String := ⟨s.toList.map pyLowerChar⟩

/-- ASCII uppercasing, as Python `str.upper()` acts on ASCII letters. -/
def pyUpperChar (c : Char) : Char :=
  if 'a' ≤ c && c ≤ 'z' then Char.ofNat (c.toNat - 32) else c

/-- Python `str.upper()`. -/
def pyUpper (s : String) : String := ⟨s.toList.map pyUpperChar⟩

/-- Does `hay` start with `needle`? -/
def startsWithList : List Char → List Char → Bool
  | _, [] => true
  | [], _ :: _ => false
  | h :: hs, n :: ns => h = n && startsWithList hs ns

/-- Python `needle in hay` substring test on character lists. -/
def containsSub (hay needle : List Char) : Bool :=
  match hay with
  | [] => needle.isEmpty
  | _ :: t => startsWithList hay needle || containsSub t needle

/-- Python `needle in hay` on strings. -/
def strContains (hay needle : String) : Bool := containsSub hay.toList needle.toList

/-- Python `hay.startswith(needle)` on strings. -/
def strStarts (hay needle : String) : Bool := startsWithList hay.toList needle.toList

/-- Python string `<` (lexicographic by code points) on character lists. -/
def strLtList : List Char → List Char → Bool
  | [], [] => false
  | [], _ :: _ => true
  | _ :: _, [] => false
  | a :: as, b :: bs => if a < b then true else if b < a then false else strLtList as bs

/-- Python `splitlines` restricted to the line terminators occurring in the
bot's inputs (`\n`, `\r\n`, `\r`).  Like Python, a trailing terminator does
not produce a final empty line. -/
def splitLinesGo : List Char → List Char → Bool → List (List Char)
  | [], acc, _ => [acc.reverse]
  | c :: t, acc, afterCR =>
    if afterCR && c = '\n' then splitLinesGo t acc false
    else if c = '\r' then acc.reverse :: splitLinesGo t [] true
    else if c = '\n' then acc.reverse :: splitLinesGo t [] false
    else splitLinesGo t (c :: acc) false

/-- Python `s.splitlines()`. -/
def splitLines (s : String) : List String :=
  if s.toList.isEmpty then []
  else
    let parts := splitLinesGo s.toList [] false
    -- a trailing terminator yields a final empty chunk that Python drops
    (match parts.reverse with
     | [] => []
     | last :: rest => if last.isEmpty then rest.reverse else parts).map (⟨·⟩)

/-- Maximal digit runs of a character list, in order (`re.findall(r"\d+", s)`). -/
def digitRunsGo : List Char → List Char → List String
  | [], acc => if acc.isEmpty then [] else [⟨acc.reverse⟩]
  | c :: t, acc =>
    if c.isDigit then digitRunsGo t (c :: acc)
    else if acc.isEmpty then digitRunsGo t [] else (⟨acc.reverse⟩ : String) :: digitRunsGo t []

/-- `re.findall(r"\d+", s)`: all maximal digit runs of `s`. -/
def digitRuns (s : String) : List String := digitRunsGo s.toList []

/-- All digits of a string, in order (`re.sub(r"\D+", "", s)`). -/
def digitsOnly (s : String) : String := ⟨s.toList.filter Char.isDigit⟩

/-- Python word characters as they occur in the bot's data: `\w` of Python's
`re` covers ASCII alphanumerics and CJK unified ideographs (unicode
letters); the underscore is excluded here because `_normalize_for_match`
deletes it via the `_` in its character class. -/
def pyWordChar (c : Char) : Bool :=
  c.isAlphanum || (0x4E00 ≤ c.toNat && c.toNat ≤ 0x9FFF) || (0x3040 ≤ c.toNat && c.toNat ≤ 0x30FF)

/-- `_normalize_for_match`: lowercase, then delete whitespace, punctuation
and underscore (`re.sub(r"[\s\W_]+", "", s.lower())`). -/
def normalizeForMatch (s : String) : String :=
  ⟨(s.toList.map pyLowerChar).filter pyWordChar⟩

/-- Python `"sep".join(list)`. -/
def pyJoin (sep : String) : List String → String
  | [] => ""
  | [x] => x
  | x :: y :: t => x ++ sep ++ pyJoin sep (y :: t)

/-- Decimal digits, fuelled (any fuel above the value is enough). -/
def natToDecGo (fuel n : Nat) : List Char :=
  match fuel with
  | 0 => []
  | fuel + 1 =>
    if n < 10 then [Char.ofNat (48 + n)]
    else natToDecGo fuel (n / 10) ++ [Char.ofNat (48 + n % 10)]

/-- Decimal digits of a natural number (most significant first). -/
def natToDec (n : Nat) : List Char := natToDecGo (n + 1) n

/-- Numeric value of a digit character. -/
def digitVal (c : Char) : Nat := c.toNat - 48

/-- Value of a digit string (most significant first). -/
def digitsVal (cs : List Char) : Nat := cs.foldl (fun a c => a * 10 + digitVal c) 0

/-- Python `"{:04d}".format n`: decimal digits left-padded with zeros to at
least four characters. -/
def pad4 (n : Nat) : List Char :=
  List.replicate (4 - (natToDec n).length) '0' ++ natToDec n

/-! ## Geo resolver (`_load_zipref`, `lookup_zip`) -/

/-- Stable insertion of `x` into a list sorted descending by `key`.  `x` goes
after every earlier element of equal key, matching Python's stable
`list.sort(key=..., reverse=True)`. -/
def insDescBy (key : α → Nat) (x : α) : List α → List α
  | [] => [x]
  | y :: t => if key y ≤ key x then x :: y :: t else y :: insDescBy key x t

/-- Stable sort, descending by `key` (insertion sort). -/
def sortDescBy (key : α → Nat) (l : List α) : List α := l.foldr (insDescBy key) []

/-- `re.fullmatch(r"\d{3}(\d{2})?", z)`: a 3- or 5-digit postal code. -/
def zipOk (z : String) : Bool :=
  (z.toList.length = 3 || z.toList.length = 5) && z.toList.all Char.isDigit

/-- `_load_zipref`, after the worksheet adapter has picked the address and
zip columns: keep rows with a non-empty stripped address prefix and a
well-formed postal code, then sort by prefix length descending. -/
def loadZipref (rows : List (String × String)) : List (String × String) :=
  sortDescBy (fun pz => pz.1.toList.length)
    (rows.filterMap (fun pz =>
      let p := pstrip pz.1
      let z := pstrip pz.2
      if p ≠ "" && zipOk z then some (p, z) else none))

/-- First entry of the table whose prefix occurs in the address. -/
def lookupZipGo (a : String) : List (String × String) → Option String
  | [] => none
  | (p, z) :: t => if strContains a p then some z else lookupZipGo a t

/-- `lookup_zip`: `None` on an empty address, otherwise the postal code of
the first table entry whose prefix is contained in the stripped address. -/
def lookupZip (table : List (String × String)) (address : String) : Option String :=
  if address = "" then none
  else lookupZipGo (pstrip address) table

/-! ## Record-id generation (`_gen_next_record_id`) -/

/-- `re.fullmatch(r"R(\d{4})", v.strip())`, returning the numeric part. -/
def parseRid (v : String) : Option Nat :=
  match pstripList v.toList with
  | [r, a, b, c, d] =>
    if r = 'R' && a.isDigit && b.isDigit && c.isDigit && d.isDigit then
      some (digitsVal [a, b, c, d])
    else none
  | _ => none

/-- One step of the scan loop of `_gen_next_record_id`. -/
def ridStep (acc : Nat) (v : String) : Nat :=
  match parseRid v with | some n => max acc n | none => acc

/-- The scan loop of `_gen_next_record_id`: maximum numeric part over all
well-formed `R\d{4}` identifiers in the column, 0 if there are none. -/
def maxRidNo (col : List String) : Nat := col.foldl ridStep 0

/-- `_gen_next_record_id`: `f"R{max_no+1:04d}"` over the identifier column
(the column values below the header row). -/
def genNextRecordId (col : List String) : String :=
  ⟨'R' :: pad4 (maxRidNo col + 1)⟩

/-! ## OCR reconciler (`_pair_ids_with_numbers`) -/

/-- `re.finditer(r"R\d{4}", line)`: non-overlapping scan for `R` followed by
four digits (fuelled; the initial fuel `cs.length` is always enough since
every step consumes at least one character). -/
def scanRidsGo : Nat → List Char → List String
  | 0, _ => []
  | _, [] => []
  | fuel + 1, c :: t =>
    if c = 'R' && (t.take 4).length = 4 && (t.take 4).all Char.isDigit then
      (⟨c :: t.take 4⟩ : String) :: scanRidsGo fuel (t.drop 4)
    else scanRidsGo fuel t

/-- `re.finditer(r"R\d{4}", line)`. -/
def scanRids (cs : List Char) : List String := scanRidsGo cs.length cs

/-- `re.finditer(r"\d{12}", line)`: non-overlapping scan for twelve
consecutive digits (fuelled like `scanRidsGo`). -/
def scanNumsGo : Nat → List Char → List String
  | 0, _ => []
  | _, [] => []
  | fuel + 1, c :: t =>
    if c.isDigit && (t.take 11).length = 11 && (t.take 11).all Char.isDigit then
      (⟨c :: t.take 11⟩ : String) :: scanNumsGo fuel (t.drop 11)
    else scanNumsGo fuel t

/-- `re.finditer(r"\d{12}", line)`. -/
def scanNums (cs : List Char) : List String := scanNumsGo cs.length cs

/-- Distance between line indices (`abs(lj - li)` on Python ints). -/
def lineDist (a b : Nat) : Nat := max a b - min a b

/-- The inner selection loop of `_pair_ids_with_numbers`: scan `nums` in
order, skip already-used tokens, keep the first strict improvement over the
running best distance, which starts at 999. -/
def chooseNumGo (used : List (String × Nat)) (li : Nat) :
    List (String × Nat) → Option (String × Nat) → Nat → Option (String × Nat)
  | [], best, _ => best
  | nl :: t, best, bd =>
    if used.contains nl then chooseNumGo used li t best bd
    else if lineDist nl.2 li < bd then chooseNumGo used li t (some nl) (lineDist nl.2 li)
    else chooseNumGo used li t best bd

/-- Selection of the tracking token for one identifier. -/
def chooseNum (nums used : List (String × Nat)) (li : Nat) : Option (String × Nat) :=
  chooseNumGo used li nums none 999

/-- The identifier loop of `_pair_ids_with_numbers`. -/
def pairGo (nums : List (String × Nat)) :
    List (String × Nat) → List (String × Nat) →
    List (String × String) × List (String × Nat) × List String
  | [], used => ([], used, [])
  | (rid, li) :: t, used =>
    match chooseNum nums used li with
    | some nl =>
      let (ps, us, ls) := pairGo nums t (used ++ [nl])
      ((rid, nl.1) :: ps, us, ls)
    | none =>
      let (ps, us, ls) := pairGo nums t used
      (ps, us, (rid ++ "｜未找到 12 碼單號") :: ls)

/-- `_pair_ids_with_numbers`: collect `R\d{4}` identifiers and 12-digit
tracking tokens with their (stripped, non-blank) line indices, then greedily
pair each identifier with the nearest not-yet-used token. -/
def pairIdsWithNumbers (text : String) : List (String × String) × List String :=
  if text = "" then ([], ["未讀取到文字"])
  else
    let lines := ((splitLines text).map pstrip).filter (· ≠ "")
    let rids := (lines.enum).flatMap (fun li => (scanRids li.2.toList).map ((·, li.1)))
    let nums := (lines.enum).flatMap (fun li => (scanNums li.2.toList).map ((·, li.1)))
    let (pairs, used, leftovers) := pairGo nums rids []
    (pairs, leftovers ++ (nums.filter (fun nl => ¬ used.contains nl)).map
      (fun nl => "未配對單號：" ++ nl.1))

/-! ## difflib core (`SequenceMatcher`, `get_close_matches`)

`resolve_book_name` calls `difflib.get_close_matches(src, universe, n=5,
cutoff=0.8)`.  For the short strings involved no element of `b` is junk
(autojunk needs `len(b) >= 200`), and the `real_quick_ratio`/`quick_ratio`
pre-filters are upper bounds of `ratio`, so the filter is exactly
`ratio >= cutoff`.  Ratios are kept as exact pairs `(M, T)` with
`ratio = 2M/T`; the float comparisons of the source coincide with the
rational ones on the catalogue sizes involved. -/

/-- Slice `cs[lo:hi]` of a character list. -/
def seg (cs : List Char) (lo hi : Nat) : List Char := (cs.take hi).drop lo

/-- Length of the longest common prefix. -/
def commonPrefLen : List Char → List Char → Nat
  | a :: as, b :: bs => if a = b then commonPrefLen as bs + 1 else 0
  | _, _ => 0

/-- Length of the matching run ending at `(i, j)` inside the window
`a[alo:], b[blo:]` — the value `k = j2len[j]` of `find_longest_match`'s
dynamic program. -/
def endLen (a b : List Char) (alo blo i j : Nat) : Nat :=
  commonPrefLen (seg a alo (i + 1)).reverse (seg b blo (j + 1)).reverse

/-- `SequenceMatcher.find_longest_match` on the window
`a[alo:ahi], b[blo:bhi]` (no junk): the longest matching block, ties broken
by the earliest end position in scan order (`i` major, `j` minor), exactly
as the source updates `besti, bestj, bestsize` only on strict improvement. -/
def longestMatch (a b : List Char) (alo ahi blo bhi : Nat) : Nat × Nat × Nat :=
  (List.range' alo (ahi - alo)).foldl (fun best i =>
    (List.range' blo (bhi - blo)).foldl (fun best j =>
      let k := endLen a b alo blo i j
      if best.2.2 < k then (i + 1 - k, j + 1 - k, k) else best) best)
    (alo, blo, 0)

/-- Total size of the matching blocks of `get_matching_blocks` (their sizes
sum is all `ratio` needs; the final merge step preserves the sum). -/
def matchTotal (fuel : Nat) (a b : List Char) (alo ahi blo bhi : Nat) : Nat :=
  match fuel with
  | 0 => 0
  | fuel + 1 =>
    let (i, j, k) := longestMatch a b alo ahi blo bhi
    if k = 0 then 0
    else matchTotal fuel a b alo i blo j + k + matchTotal fuel a b (i + k) ahi (j + k) bhi

/-- The `M` of `SequenceMatcher(a, b).ratio() = 2M / (len a + len b)`. -/
def ratioM (a b : List Char) : Nat :=
  matchTotal (a.length + b.length + 1) a b 0 a.length 0 b.length

/-- `ratio(x, word) >= 0.8`, as an exact rational comparison:
`2M/T >= 4/5  ⟺  10M >= 4T`. -/
def cutoff08 (word x : List Char) : Bool :=
  10 * ratioM x word ≥ 4 * (x.length + word.length)

/-- Python tuple comparison `(ratio1, x1) >= (ratio2, x2)` used by
`heapq.nlargest` on `(score, word)` pairs: ratios compared exactly by
cross-multiplication, ties by string comparison. -/
def scoreGe (word x y : List Char) : Bool :=
  let mx := ratioM x word
  let my := ratioM y word
  let tx := x.length + word.length
  let ty := y.length + word.length
  if my * tx < mx * ty then true
  else if mx * ty < my * tx then false
  else !strLtList x y

/-- Stable insertion for the descending `(score, word)` order. -/
def insScore (word x : List Char) : List (List Char) → List (List Char)
  | [] => [x]
  | y :: t => if scoreGe word x y then x :: y :: t else y :: insScore word x t

/-- `heapq.nlargest(n, [(score, x), ...])`, i.e. a stable descending sort by
`(score, x)` (`nlargest` is documented as `sorted(..., reverse=True)[:n]`). -/
def sortByScore (word : List Char) (l : List (List Char)) : List (List Char) :=
  l.foldr (insScore word) []

/-- `difflib.get_close_matches(word, possibilities, n=5, cutoff=0.8)`. -/
def getCloseMatches (word : List Char) (poss : List (List Char)) : List (List Char) :=
  (sortByScore word (poss.filter (cutoff08 word))).take 5

/-! ## Catalog resolver (`build_book_index`, `resolve_book_name`) -/

/-- One alias of `build_book_index`: display form and normalized form. -/
structure MAlias where
  raw : String
  norm : String
deriving DecidableEq, Repr

/-- One entry of the book index built by `build_book_index`. -/
structure BookEntry where
  title : String
  aliases : List MAlias
deriving DecidableEq, Repr

/-- One row of the 《書目主檔》 worksheet after the header-name lookup:
`書籍名稱`, `模糊比對書名`, `是否啟用`. -/
structure CatRow where
  title : String
  aliasField : String
  onFlag : String
deriving DecidableEq, Repr

/-- Separator class of `_split_alias_field` (`[、,;|／/ ]+`). -/
def aliasSep (c : Char) : Bool :=
  c = '、' || c = ',' || c = ';' || c = '|' || c = '／' || c = '/' || c = ' '

/-- Split on maximal runs of `aliasSep` characters. -/
def splitSepsGo (p : Char → Bool) : List Char → List Char → List (List Char)
  | [], acc => if acc.isEmpty then [] else [acc.reverse]
  | c :: t, acc =>
    if p c then
      if acc.isEmpty then splitSepsGo p t [] else acc.reverse :: splitSepsGo p t []
    else splitSepsGo p t (c :: acc)

/-- `_split_alias_field`: split the alias field on the separator class, drop
blanks, keep both the stripped display form and the normalized form. -/
def splitAliasField (field : String) : List MAlias :=
  ((splitSepsGo aliasSep field.toList []).filter (fun p => !(pstripList p).isEmpty)).map
    (fun p => { raw := ⟨pstripList p⟩, norm := normalizeForMatch ⟨p⟩ })

/-- `build_book_index`: keep rows with a non-blank title whose enable flag
is `使用中`; aliases come from the alias field, falling back to the title;
aliases are sorted longest-normalized-form first (stable). -/
def buildBookIndex (rows : List CatRow) : List BookEntry :=
  rows.filterMap (fun r =>
    let t := pstrip r.title
    if t = "" then none
    else if pstrip r.onFlag ≠ "使用中" then none
    else
      let als := match splitAliasField r.aliasField with
        | [] => splitAliasField t
        | l => l
      some { title := t, aliases := sortDescBy (fun a => a.norm.toList.length) als })

/-- Result of `resolve_book_name`: `(正式書名, 比對方式, 候選清單)`. -/
inductive RBOut where
  | res (title : String) (kind : String)
  | amb (cands : List String)
  | nf
deriving DecidableEq, Repr

/-- Step 1 of `resolve_book_name`: first book with an alias whose normalized
form equals the normalized input. -/
def exactFind (books : List BookEntry) (srcNorm : String) : Option String :=
  books.findSome? (fun b =>
    if b.aliases.any (fun al => al.norm = srcNorm) then some b.title else none)

/-- Step 2 predicate of `resolve_book_name`: some alias of the book shares a
digit run with the input. -/
def sharesDigit (digits : List String) (b : BookEntry) : Bool :=
  b.aliases.any (fun al => digits.any (fun d => (digitRuns al.norm).contains d))

/-- Step 3 of `resolve_book_name`: first book with an alias of normalized
length ≥ 4 contained in the normalized input. -/
def containFind (books : List BookEntry) (srcNorm : String) : Option String :=
  books.findSome? (fun b =>
    if b.aliases.any (fun al => 4 ≤ al.norm.toList.length && strContains srcNorm al.norm)
    then some b.title else none)

/-- The fuzzy universe of step 4: normalized aliases of the narrowed books,
skipping empty ones and those shorter than 3 characters unless they match
`^[a-z]\d$`. -/
def fuzzyUniverse (books : List BookEntry) : List String :=
  books.flatMap (fun b => b.aliases.filterMap (fun al =>
    if al.norm = "" then none
    else if al.norm.toList.length < 3 &&
        !(al.norm.toList.length = 2 &&
          ('a' ≤ al.norm.toList.head! && al.norm.toList.head! ≤ 'z') &&
          (al.norm.toList.getLast!).isDigit) then none
    else some al.norm))

/-- `reverse_map[norm] = title` built by dict assignment: the *last* book
contributing a given normalized alias wins. -/
def revLookup (books : List BookEntry) (norm : String) : Option String :=
  ((books.flatMap (fun b => b.aliases.filterMap (fun al =>
      if al.norm = "" then none
      else if al.norm.toList.length < 3 &&
          !(al.norm.toList.length = 2 &&
            ('a' ≤ al.norm.toList.head! && al.norm.toList.head! ≤ 'z') &&
            (al.norm.toList.getLast!).isDigit) then none
      else some (al.norm, b.title)))).reverse.find? (fun p => p.1 = norm)).map (·.2)

/-- The `formal` list of step 4: canonical titles of the matches, blanks
dropped, de-duplicated keeping first occurrence. -/
def dedupTitles (l : List String) : List String :=
  l.foldl (fun acc t => if t ≠ "" && !acc.contains t then acc ++ [t] else acc) []

/-- Step 4 of `resolve_book_name`. -/
def fuzzyStep (books : List BookEntry) (srcNorm : String) : RBOut :=
  let univ := fuzzyUniverse books
  let ms := getCloseMatches srcNorm.toList (univ.map (·.toList))
  if ms.isEmpty then .nf
  else
    let formal := dedupTitles (ms.filterMap (fun m => revLookup books ⟨m⟩))
    if formal.length = 1 then .res formal.head! "fuzzy" else .amb formal

/-- `resolve_book_name` over a built book index. -/
def resolveBookName (books : List BookEntry) (userInput : String) : RBOut :=
  let srcNorm := normalizeForMatch userInput
  if srcNorm = "" then .nf
  else
    let digits := digitRuns userInput
    match exactFind books srcNorm with
    | some t => .res t "exact"
    | none =>
      let narrowed := if digits.isEmpty then books else books.filter (sharesDigit digits)
      if !digits.isEmpty && narrowed.isEmpty then .nf
      else
        match containFind narrowed srcNorm with
        | some t => .res t "contain"
        | none => fuzzyStep narrowed srcNorm

/-! ## Field parser (`parse_kv_lines`, `normalize_phone`, `detect_delivery_method`,
`_parse_new_order_text`) -/

/-- Python truthiness of an optional string (`None` and `""` are falsy). -/
def optTruthy (o : Option String) : Bool :=
  match o with | some s => s ≠ "" | none => false

/-- `None`-rendering of an optional string inside a Python f-string. -/
def pyShowOpt (o : Option String) : String :=
  match o with | some s => s | none => "None"

/-- `data.setdefault(k, []).append(v)` on an insertion-ordered dict. -/
def kvInsert (data : List (String × List String)) (k v : String) :
    List (String × List String) :=
  if data.any (·.1 = k) then data.map (fun e => if e.1 = k then (e.1, e.2 ++ [v]) else e)
  else data ++ [(k, [v])]

/-- `s.split(sep, 1)`: split at the first occurrence of `sep`, if any. -/
def splitFirstOn (sep : Char) : List Char → Option (List Char × List Char)
  | [] => none
  | c :: t => if c = sep then some ([], t)
              else (splitFirstOn sep t).map (fun p => (c :: p.1, p.2))

/-- `parse_kv_lines`: non-blank stripped lines, `#`-lines skipped, each split
at the first `：` (else `:`) into a key/value pair, otherwise filed under
`_free_`; values accumulate per key in insertion order. -/
def parseKvLines (text : String) : List (String × List String) :=
  (((splitLines text).map pstrip).filter (· ≠ "")).foldl (fun data ln =>
    if strStarts ln "#" then data
    else
      match splitFirstOn '：' ln.toList with
      | some kv => kvInsert data (pstrip ⟨kv.1⟩) (pstrip ⟨kv.2⟩)
      | none =>
        match splitFirstOn ':' ln.toList with
        | some kv => kvInsert data (pstrip ⟨kv.1⟩) (pstrip ⟨kv.2⟩)
        | none => kvInsert data "_free_" (pstrip ln)) []

/-- `normalize_phone`: the digits of `s` if they form a 10-digit `09…`. -/
def normalizePhone (s : String) : Option String :=
  let digits := digitsOnly s
  if digits.toList.length = 10 && strStarts digits "09" then some digits else none

/-- `detect_delivery_method`. -/
def detectDelivery (text : String) : Option String :=
  let s : String :=
    ⟨(pyLower text).toList.map (fun c => if c = '—' then '-' else if c = '／' then '/' else c)⟩
  if ["7-11", "7/11", "7／11", "7–11", "711", "小七"].any (fun k => strContains s k) then
    some "7-11"
  else if strContains s "全家" || strContains s "family" then some "全家"
  else if strContains s "萊爾富" || strContains s "hi-life" || strContains s "hilife" then
    some "萊爾富"
  else if strContains s "ok" || strContains s "ok超商" then some "OK"
  else none

/-- Pop the first dict entry (insertion order) whose key satisfies `p`. -/
def popFirst (p : String → Bool) : List (String × List String) →
    Option ((String × List String) × List (String × List String))
  | [] => none
  | e :: t => if p e.1 then some (e, t)
              else (popFirst p t).map (fun r => (r.1, e :: r.2))

/-- The structured draft order produced by `_parse_new_order_text`. -/
structure ParsedOrder where
  name : Option String
  phone : Option String
  address : Option String
  bookRaw : Option String
  bizNote : String
  delivery : Option String
  rawText : String
deriving DecidableEq, Repr

/-- Key selectors of `_parse_new_order_text` (`any(x in k for x in [...])`). -/
def nameKey (k : String) : Bool :=
  ["姓名", "學員", "收件人", "名字", "貴姓"].any (fun x => strContains k x)

/-- Address-key selector. -/
def addrKey (k : String) : Bool :=
  ["寄送地址", "地址", "收件地址", "配送地址"].any (fun x => strContains k x)

/-- Book-key selector. -/
def bookKey (k : String) : Bool :=
  ["書", "書名", "教材", "書籍名稱"].any (fun x => strContains k x)

/-- `_parse_new_order_text`: pop name / phone / address / book fields in
order, detect the delivery method on the remaining text plus the address,
default to `便利帶` when an address is present, collect the rest into the
business note, and validate. -/
def parseNewOrderText (rawText : String) : ParsedOrder × List String :=
  let data0 := parseKvLines rawText
  let (name, data1) :=
    match popFirst nameKey data0 with
    | some (e, rest) => (some (pyJoin "、" e.2), rest)
    | none => (none, data0)
  let (phone, data2) :=
    match popFirst (fun k => strContains k "電話") data1 with
    | some (e, rest) => (e.2.findSome? normalizePhone, rest)
    | none => (none, data1)
  let (address, data3) :=
    match popFirst addrKey data2 with
    | some (e, rest) => (some (⟨(pyJoin " " e.2).toList.filter (· ≠ ' ')⟩ : String), rest)
    | none => (none, data2)
  let (bookRaw, data4) :=
    match popFirst bookKey data3 with
    | some (e, rest) => (some (pstrip (pyJoin " " e.2)), rest)
    | none => (none, data3)
  let merged := pyJoin "\n" (data4.flatMap (·.2))
  let delivery0 := detectDelivery (merged ++ " " ++ (address.getD ""))
  let delivery := if delivery0 = none && optTruthy address then some "便利帶" else delivery0
  let others := data4.flatMap (fun e =>
    e.2.map (fun v => if e.1 ≠ "_free_" then e.1 ++ "：" ++ v else v))
  let bizNote := pyJoin " / " (others.filter (fun x => pstrip x ≠ ""))
  let errs :=
    (if optTruthy name then [] else ["缺少【姓名】"]) ++
    (if optTruthy phone then [] else ["電話格式錯誤（需 09 開頭 10 碼）"]) ++
    (if optTruthy bookRaw then [] else ["缺少【書名】"]) ++
    (if delivery ∉ [some "7-11", some "全家", some "OK", some "萊爾富"] && !optTruthy address
     then ["缺少【寄送地址】（非超商必填）"] else [])
  ({ name := name, phone := phone, address := address, bookRaw := bookRaw,
     bizNote := bizNote, delivery := delivery, rawText := rawText }, errs)

/-! ## Sheet rows, state, pending store -/

/-- One row of the 寄書任務 worksheet (columns A–M of `_build_insert_row`). -/
structure Row where
  rid : String        -- A 紀錄ID
  createdAt : String  -- B 建單日期
  createdBy : String  -- C 建單人
  stuName : String    -- D 學員姓名
  stuPhone : String   -- E 學員電話
  addr : String       -- F 寄送地址
  book : String       -- G 書籍名稱
  note : String       -- H 業務備註
  delivery : String   -- I 寄送方式
  shipDate : String   -- J 寄出日期
  tracking : String   -- K 託運單號
  handlerBy : String  -- L 經手人
  status : String     -- M 寄送狀態
deriving DecidableEq, Repr

/-- Column A (紀錄ID) of the sheet, below the header. -/
def ridCol (sheet : List Row) : List String := sheet.map (·.rid)

/-- One row of the 入庫明細 worksheet (`_write_stockin_rows`). -/
structure StockRow where
  date : String
  operator : String
  book : String
  qty : Int
  src : String
  note : String
deriving DecidableEq, Repr

/-- `_parse_raw_to_order`'s output dict (the second definition in the file,
which overrides the first). -/
structure RawParsed where
  name : Option String
  phone : Option String
  address : Option String
  bookList : List String
  bookRaw : String
  bizNote : String
deriving DecidableEq, Repr

/-- The `_PENDING` entry of one user (`type` discriminates). -/
inductive Pend where
  | cancelOrder (rid : String) (rows : List Nat) (stu : String)
      (bookList : String) (operator : String)
  | stockIn (operator : String) (items : List (String × Int))
  | tidy (data : RawParsed)
deriving DecidableEq, Repr

/-- The engine state: main sheet, stock-in sheet, `_PENDING`, `_OCR_SESSION`. -/
structure BotState where
  sheet : List Row
  stock : List StockRow
  pending : List (String × Pend)
  ocr : List (String × Nat)
deriving DecidableEq, Repr

/-- `_PENDING.get(user_id)`. -/
def lookupPend (m : List (String × Pend)) (uid : String) : Option Pend :=
  (m.find? (·.1 = uid)).map (·.2)

/-- `_PENDING[user_id] = p`. -/
def setPend (m : List (String × Pend)) (uid : String) (p : Pend) : List (String × Pend) :=
  (uid, p) :: m.filter (·.1 ≠ uid)

/-- `_PENDING.pop(user_id, None)`. -/
def popPend (m : List (String × Pend)) (uid : String) : List (String × Pend) :=
  m.filter (·.1 ≠ uid)

/-! ## Timestamps (`datetime.strptime(dt_str[:16], "%Y-%m-%d %H:%M")`) -/

/-- A parsed timestamp, to minute precision. -/
structure DT where
  y : Nat
  mo : Nat
  d : Nat
  hh : Nat
  mi : Nat
deriving DecidableEq, Repr

/-- `datetime.min` (year 1, used as the bottom sort key). -/
def dtMin : DT := ⟨1, 1, 1, 0, 0⟩

/-- Lexicographic `<` on timestamps. -/
def dtLt (a b : DT) : Bool :=
  if a.y ≠ b.y then a.y < b.y
  else if a.mo ≠ b.mo then a.mo < b.mo
  else if a.d ≠ b.d then a.d < b.d
  else if a.hh ≠ b.hh then a.hh < b.hh
  else a.mi < b.mi

/-- Gregorian leap year. -/
def isLeap (y : Nat) : Bool := y % 4 = 0 && (y % 100 ≠ 0 || y % 400 = 0)

/-- Days in a month (the `datetime` constructor's validation). -/
def daysInMonth (y mo : Nat) : Nat :=
  if mo = 2 then (if isLeap y then 29 else 28)
  else if mo = 4 || mo = 6 || mo = 9 || mo = 11 then 30
  else 31

/-- A 1–2 digit numeric field followed by a literal, with the alternation
preference of CPython's `_strptime` regexes (two digits when the two-digit
alternative and the following literal both match, else one digit).  The
local lookahead is exhaustive: no input satisfies both alternatives. -/
def parseNumLit (ok2 ok1 : Nat → Bool) (lit : Char) : List Char → Option (Nat × List Char)
  | a :: b :: rest =>
    if a.isDigit && b.isDigit && ok2 (10 * digitVal a + digitVal b) &&
        rest.head? = some lit then
      some (10 * digitVal a + digitVal b, rest.tail)
    else if a.isDigit && ok1 (digitVal a) && b = lit then some (digitVal a, rest)
    else none
  | _ => none

/-- The final `%M` field: 1–2 digits ending the string (`[0-5]\d|\d`). -/
def parseMinEnd : List Char → Option Nat
  | [a, b] => if a.isDigit && b.isDigit && digitVal a ≤ 5 then
                some (10 * digitVal a + digitVal b) else none
  | [a] => if a.isDigit then some (digitVal a) else none
  | _ => none

/-- `strptime(cs, "%Y-%m-%d %H:%M")` on an exact character list (`%Y` is
exactly four digits; the datetime constructor validates the calendar). -/
def parseDTList (cs : List Char) : Option DT :=
  match cs with
  | y1 :: y2 :: y3 :: y4 :: '-' :: rest =>
    if y1.isDigit && y2.isDigit && y3.isDigit && y4.isDigit then
      match parseNumLit (fun n => 1 ≤ n && n ≤ 12) (fun n => 1 ≤ n) '-' rest with
      | some (mo, rest2) =>
        match parseNumLit (fun n => 1 ≤ n && n ≤ 31) (fun n => 1 ≤ n) ' ' rest2 with
        | some (d, rest3) =>
          match parseNumLit (fun n => n ≤ 23) (fun _ => true) ':' rest3 with
          | some (hh, rest4) =>
            match parseMinEnd rest4 with
            | some mi =>
              let y := digitsVal [y1, y2, y3, y4]
              if 1 ≤ y && d ≤ daysInMonth y mo then some ⟨y, mo, d, hh, mi⟩ else none
            | none => none
          | none => none
        | none => none
      | none => none
    else none
  | _ => none

/-- `datetime.strptime(dt_str[:16], "%Y-%m-%d %H:%M")` with `try/except`:
`none` is the `dt = None` branch. -/
def parseDT (s : String) : Option DT := parseDTList (s.toList.take 16)

/-- Ambient time, passed to the handlers as the source reads the clock:
`now_str_min()`, `today_str()`, the `since` cutoff
(`datetime.now(TZ) - timedelta(days=QUERY_DAYS)`), and `time.time()`. -/
structure Clock where
  nowMin : String
  today : String
  since : DT
  epoch : Nat
deriving Repr

/-! ## Order creation (`_build_insert_row`, `_insert_row_values_no_inherit`,
`_handle_new_order`) -/

/-- `WRITE_ZIP_TO_ADDRESS` (env default `"true"`). -/
def writeZipToAddress : Bool := true

/-- `re.match(r"^\d{3}", address)`: the address already starts with three digits. -/
def startsWith3Digits (s : String) : Bool :=
  (s.toList.take 3).length = 3 && (s.toList.take 3).all Char.isDigit

/-- The postal-code prefixing of `_build_insert_row`: prepend the looked-up
code when the address is non-empty and does not already start with 3 digits. -/
def zipAddress (zipT : List (String × String)) (address : String) : String :=
  if writeZipToAddress && address ≠ "" then
    match lookupZip zipT address with
    | some z => if startsWith3Digits address then address else z ++ address
    | none => address
  else address

/-- `_build_insert_row`: one sheet row from the parsed order.  Falsy
(`None`/empty) `force_rid`/`force_book` fall back to a generated id and
`data.get("book_formal", "")` (a key the parsed dict never holds). -/
def buildInsertRow (zipT : List (String × String)) (sheet : List Row)
    (data : ParsedOrder) (who now : String) (forceRid forceBook : Option String) : Row :=
  let rid := if optTruthy forceRid then forceRid.getD ""
             else genNextRecordId (ridCol sheet)
  let phone := data.phone.getD ""
  { rid := rid
    createdAt := now
    createdBy := if who = "" then "LINE使用者" else who
    stuName := data.name.getD ""
    stuPhone := if phone ≠ "" then "'" ++ phone else ""
    addr := zipAddress zipT (data.address.getD "")
    book := if optTruthy forceBook then forceBook.getD "" else ""
    note := data.bizNote
    delivery := data.delivery.getD ""
    shipDate := ""
    tracking := ""
    handlerBy := ""
    status := "待處理" }

/-- `_insert_row_values_no_inherit(ws, row, index=2)`: insert at sheet row 2,
i.e. prepend to the data rows. -/
def insertRowTop (sheet : List Row) (row : Row) : List Row := row :: sheet

/-- The separator class of `_BOOK_SPLIT_RE` (`[、，,／/\s\t]+`). -/
def bookSep (c : Char) : Bool :=
  c = '、' || c = '，' || c = ',' || c = '／' || c = '/' || pyIsSpace c

/-- The book-list split of `_handle_new_order`
(`[s for s in _BOOK_SPLIT_RE.split(...) if s.strip()]`). -/
def splitBooks (bookRaw : String) : List String :=
  ((splitSepsGo bookSep bookRaw.toList []).map (fun cs => (⟨cs⟩ : String))).filter
    (fun s => pstrip s ≠ "")

/-- `_handle_new_order`: parse, split the book field, resolve every token,
report ambiguities (first) or misses, else insert one row per resolved book
at the top of the sheet in reverse order under a single fresh record id. -/
def handleNewOrder (catalog : List BookEntry) (zipT : List (String × String))
    (clock : Clock) (st : BotState) (display text : String) : BotState × Option String :=
  let pe := parseNewOrderText text
  if pe.2 ≠ [] then (st, some ("❌ 建檔失敗：\n- " ++ pyJoin "\n- " pe.2))
  else
    let parsed := pe.1
    let rawList := splitBooks (parsed.bookRaw.getD "")
    if rawList.isEmpty then (st, some "❌ 建檔失敗：未讀到有效書名")
    else
      let resolved := rawList.map (fun tok => (tok, resolveBookName catalog tok))
      let ambMsgs := resolved.filterMap (fun tr =>
        match tr.2 with
        | .amb extra =>
          if !extra.isEmpty then
            some ("「" ++ tr.1 ++ "」可能是：" ++ pyJoin "、" (extra.take 10))
          else none
        | _ => none)
      let nfMsgs := resolved.filterMap (fun tr =>
        match tr.2 with
        | .res _ _ => none
        | .amb extra => if extra.isEmpty then some ("找不到書名：" ++ tr.1) else none
        | .nf => some ("找不到書名：" ++ tr.1))
      let formalList := resolved.filterMap (fun tr =>
        match tr.2 with | .res t _ => some t | _ => none)
      if !ambMsgs.isEmpty then (st, some ("❗ 書名不夠明確：\n" ++ pyJoin "\n" ambMsgs))
      else if !nfMsgs.isEmpty then (st, some ("❌ 找不到書名：\n" ++ pyJoin "\n" nfMsgs))
      else
        let rid := genNextRecordId (ridCol st.sheet)
        let sheet2 := formalList.reverse.foldl (fun sh bk =>
          insertRowTop sh (buildInsertRow zipT sh parsed display clock.nowMin
            (some rid) (some bk))) st.sheet
        let resp := "✅ 已成功建檔\n紀錄ID：" ++ rid ++ "\n建單日期：" ++ clock.nowMin ++
          "\n姓名：" ++ parsed.name.getD "" ++ "｜電話：" ++ parsed.phone.getD "" ++
          "\n地址：" ++ zipAddress zipT (parsed.address.getD "") ++
          "\n書籍：" ++ pyJoin "、" formalList ++ "\n狀態：待處理"
        ({ st with sheet := sheet2 }, some resp)

/-! ## Cancellation (`_extract_cancel_target`, `_find_latest_order`,
`_collect_rows_by_rid`, `_handle_cancel_request`) -/

/-- `re.sub(r"^#(cmd1|cmd2)\s*", "", text.strip())`. -/
def stripCmd2 (p1 p2 text : String) : String :=
  let t := pstrip text
  if strStarts t p1 then ⟨(t.toList.drop p1.toList.length).dropWhile pyIsSpace⟩
  else if strStarts t p2 then ⟨(t.toList.drop p2.toList.length).dropWhile pyIsSpace⟩
  else t

/-- `re.sub(r"^#cmd\s*", "", text.strip())`. -/
def stripCmd1 (p text : String) : String :=
  let t := pstrip text
  if strStarts t p then ⟨(t.toList.drop p.toList.length).dropWhile pyIsSpace⟩ else t

/-- `re.split(r"\s+", body)` with the empty edge tokens that the token loop
skips anyway already dropped. -/
def splitWs (s : String) : List String :=
  (splitSepsGo pyIsSpace s.toList []).map (fun cs => (⟨cs⟩ : String))

/-- The shared body of `_extract_cancel_target` /
`_extract_ship_delete_target`: labelled fields first, then a free-token
fallback (phone-shaped tokens fill the phone, digit-free tokens the name). -/
def extractTargetFromBody (body : String) : Option String × Option String :=
  let data0 := parseKvLines body
  let (name0, data1) :=
    match popFirst nameKey data0 with
    | some (e, rest) => (some (pyJoin "、" e.2), rest)
    | none => (none, data0)
  let (phone0, _) :=
    match popFirst (fun k => strContains k "電話") data1 with
    | some (e, rest) => (e.2.findSome? normalizePhone, rest)
    | none => (none, data1)
  if optTruthy name0 && optTruthy phone0 then (name0, phone0)
  else
    (splitWs body).foldl (fun np t =>
      let tt := pstrip t
      if tt = "" then np
      else
        match normalizePhone tt with
        | some p => if !optTruthy np.2 then (np.1, some p) else
            -- a phone-shaped token not taken as phone contains digits,
            -- so the name branch below would skip it anyway
            np
        | none =>
          if !optTruthy np.1 && !tt.toList.any Char.isDigit then (some tt, np.2)
          else np) (name0, phone0)

/-- `_extract_cancel_target`. -/
def extractCancelTarget (text : String) : Option String × Option String :=
  extractTargetFromBody (stripCmd2 "#取消寄書" "#刪除寄書" text)

/-- `_extract_ship_delete_target`. -/
def extractShipDeleteTarget (text : String) : Option String × Option String :=
  extractTargetFromBody (stripCmd2 "#刪除出書" "#取消出書" text)

/-- The last `n` characters of a string (`s[-n:]`). -/
def lastN (s : String) (n : Nat) : List Char := s.toList.drop (s.toList.length - n)

/-- The `phone_suffix` computation (PHONE_SUFFIX_MATCH = 9). -/
def phoneSuffix (phone : Option String) : Option String :=
  if optTruthy phone then
    let pd := digitsOnly (phone.getD "")
    if 9 ≤ pd.toList.length then some ⟨lastN pd 9⟩ else none
  else none

/-- The row filter of `_find_latest_order`: name containment and 9-digit
phone-suffix match. -/
def rowMatches (name : Option String) (sfx : Option String) (r : Row) : Bool :=
  (!optTruthy name || strContains r.stuName (name.getD "")) &&
  (match sfx with
   | some sx =>
     let cand := digitsOnly r.stuPhone
     9 ≤ cand.toList.length && lastN cand 9 = sx.toList
   | none => true)

/-- The parsed creation timestamp of a row (`dt` in `_find_latest_order`). -/
def rowDT (r : Row) : Option DT :=
  if pstrip r.createdAt ≠ "" then parseDT (pstrip r.createdAt) else none

/-- Keep the earlier candidate on ties, replace on a strictly later
timestamp: equivalent to Python's stable descending sort plus `[0]`. -/
def pickMaxDtGo (best : DT × Nat × Row) : List (DT × Nat × Row) → Nat × Row
  | [] => (best.2.1, best.2.2)
  | c :: t => if dtLt best.1 c.1 then pickMaxDtGo c t else pickMaxDtGo best t

/-- `_find_latest_order`: skip deleted rows and rows older than the 30-day
window, filter by name/phone, return the most recent candidate (row index
counted from sheet row 2). -/
def findLatestOrder (sheet : List Row) (name phone : Option String) (since : DT) :
    Option (Nat × Row) :=
  let sfx := phoneSuffix phone
  let cands := (List.enumFrom 2 sheet).filterMap (fun ir =>
    let r := ir.2
    if pstrip r.status = "已刪除" then none
    else
      let dt := rowDT r
      if (dt.map (fun t => dtLt t since)).getD false then none
      else if rowMatches name sfx r then some (dt.getD dtMin, ir.1, r) else none)
  match cands with
  | [] => none
  | c :: t => some (pickMaxDtGo c t)

/-- `_collect_rows_by_rid`: all `(row_index, row)` whose stripped 紀錄ID
equals `rid` (indices from sheet row 2). -/
def collectRowsByRid (sheet : List Row) (rid : String) : List (Nat × Row) :=
  (List.enumFrom 2 sheet).filter (fun ir => pstrip ir.2.rid = rid)

/-- The guard loop of `_handle_cancel_request`: reject when a row is already
shipped, or carries shipping fields without the shipped status. -/
def cancelGuard (rows : List (Nat × Row)) : Option String :=
  rows.findSome? (fun ir =>
    let stv := pstrip ir.2.status
    if stv = "已託運" then some "❌ 已託運，無法刪除"
    else if (ir.2.shipDate ≠ "" || ir.2.tracking ≠ "") && stv ≠ "已託運" then
      some "❗ 無法處理，請私訊客服。"
    else none)

/-- The creator comparison value (`(r[idxC-1] or "").strip() or "LINE使用者"`). -/
def creatorOf (r : Row) : String :=
  if pstrip r.createdBy = "" then "LINE使用者" else pstrip r.createdBy

/-- `_handle_cancel_request`: locate the latest matching order, require the
operator to be its creator, reject when any row of the record id is shipped,
otherwise stage a `cancel_order` pending confirmation. -/
def handleCancelRequest (clock : Clock) (st : BotState) (uid display text : String) :
    BotState × Option String :=
  let dname := if display = "" then "LINE使用者" else display
  let np := extractCancelTarget text
  match findLatestOrder st.sheet np.1 np.2 clock.since with
  | none => (st, some "❌ 找不到紀錄")
  | some (_, r) =>
    if creatorOf r ≠ dname then (st, some "❌ 你沒有刪除權限（請聯繫管理者）")
    else
      let rid := pstrip r.rid
      let allRows := collectRowsByRid st.sheet rid
      match cancelGuard allRows with
      | some msg => (st, some msg)
      | none =>
        let stu := pstrip r.stuName
        let books := pyJoin "、"
          ((allRows.filter (fun ir => pstrip ir.2.book ≠ "")).map (fun ir => ir.2.book))
        let p := Pend.cancelOrder rid (allRows.map (·.1)) stu books dname
        ({ st with pending := setPend st.pending uid p },
         some ("請確認是否刪除整筆寄書（同一ID " ++ rid ++ " 共 " ++
           toString allRows.length ++ " 列）：\n學員：" ++ stu ++ "\n書名：" ++ books ++
           "\n[Y/N]"))

/-! ## Confirmed cancellation (`_handle_pending_answer`, `cancel_order` branch) -/

/-- `f"[已刪除 {now_str_min()}]"`. -/
def delNote (now : String) : String := "[已刪除 " ++ now ++ "]"

/-- `(curr_h + " " + append_note).strip() if curr_h else append_note`. -/
def appendNote (curr note : String) : String :=
  if curr = "" then note else pstrip (curr ++ " " ++ note)

/-- Update one row of the sheet in place (out-of-range indices untouched). -/
def modifyIdx (i : Nat) (f : Row → Row) : List Row → List Row
  | [] => []
  | x :: t => match i with | 0 => f x :: t | i + 1 => x :: modifyIdx i f t

/-- The per-row mutation of a confirmed cancellation: append the audit note,
set the 經手人 to the operator, set the status to 已刪除. -/
def cancelUpd (operator now : String) (r : Row) : Row :=
  { r with note := appendNote r.note (delNote now), handlerBy := operator,
           status := "已刪除" }

/-- Stable ascending insertion (for `sorted(pend["rows"])`). -/
def insNatAsc (x : Nat) : List Nat → List Nat
  | [] => [x]
  | y :: t => if x ≤ y then x :: y :: t else y :: insNatAsc x t

/-- `sorted` on naturals. -/
def sortNatAsc (l : List Nat) : List Nat := l.foldr insNatAsc []

/-- The write loop of the `cancel_order` confirmation: mutate every staged
sheet row (row indices counted from sheet row 2). -/
def applyCancelRows (sheet : List Row) (rows : List Nat) (operator now : String) :
    List Row :=
  (sortNatAsc rows).foldl (fun sh ri => modifyIdx (ri - 2) (cancelUpd operator now) sh)
    sheet

/-! ## Stock-in (`_parse_stockin_text`, `_handle_stockin`, `_write_stockin_rows`) -/

/-- `[+-]?\d+` anchored at the end of the list. -/
def signedIntToEnd (cs : List Char) : Option Int :=
  match cs with
  | '+' :: ds => if !ds.isEmpty && ds.all Char.isDigit then some (Int.ofNat (digitsVal ds))
                 else none
  | '-' :: ds => if !ds.isEmpty && ds.all Char.isDigit then some (-(Int.ofNat (digitsVal ds)))
                 else none
  | ds => if !ds.isEmpty && ds.all Char.isDigit then some (Int.ofNat (digitsVal ds)) else none

/-- `[+-]?\d+` at the start of the list (greedy digits, no anchor). -/
def signedIntStart (cs : List Char) : Option Int :=
  match cs with
  | '+' :: ds =>
    let digits := ds.takeWhile Char.isDigit
    if digits.isEmpty then none else some (Int.ofNat (digitsVal digits))
  | '-' :: ds =>
    let digits := ds.takeWhile Char.isDigit
    if digits.isEmpty then none else some (-(Int.ofNat (digitsVal digits)))
  | ds =>
    let digits := ds.takeWhile Char.isDigit
    if digits.isEmpty then none else some (Int.ofNat (digitsVal digits))

/-- The multiplier characters of `(?:x|×|\*)` with `re.I`. -/
def qtyMark (c : Char) : Bool := c = 'x' || c = 'X' || c = '×' || c = '*'

/-- `re.search(r"(?:x|×|\*)\s*([+-]?\d+)$", ln, re.I)`: leftmost start of a
multiplier mark followed by optional whitespace and a signed integer running
to the end of the line; returns the match start and the integer. -/
def findPat1 (ln : List Char) : Option (Nat × Int) :=
  (List.range ln.length).findSome? (fun i =>
    match ln.drop i with
    | c :: rest =>
      if qtyMark c then
        (signedIntToEnd (rest.dropWhile pyIsSpace)).map (fun q => (i, q))
      else none
    | [] => none)

/-- One anchored attempt of `([+-]?\d+)\s*(本|套|冊)?$` at position `i`. -/
def pat2At (ln : List Char) (i : Nat) : Option (Nat × Int) :=
  match ln.drop i with
  | [] => none
  | c :: rest =>
    let sgn : Int := if c = '-' then -1 else 1
    let ds0 := if c = '+' || c = '-' then rest else c :: rest
    let digits := ds0.takeWhile Char.isDigit
    if digits.isEmpty then none
    else
      let after := (ds0.drop digits.length).dropWhile pyIsSpace
      if after = [] || after = ['本'] || after = ['套'] || after = ['冊'] then
        some (i, sgn * Int.ofNat (digitsVal digits))
      else none

/-- `re.search(r"([+-]?\d+)\s*(本|套|冊)?$", ln)`. -/
def findPat2 (ln : List Char) : Option (Nat × Int) :=
  (List.range ln.length).findSome? (pat2At ln)

/-- `re.search(r"數量[:：]\s*([+-]?\d+)", ln)`. -/
def findPat3 (ln : List Char) : Option (Nat × Int) :=
  (List.range ln.length).findSome? (fun i =>
    match ln.drop i with
    | '數' :: '量' :: c :: rest =>
      if c = ':' || c = '：' then
        (signedIntStart (rest.dropWhile pyIsSpace)).map (fun q => (i, q))
      else none
    | _ => none)

/-- The quantity-pattern cascade of `_parse_stockin_text`. -/
def stockLineQty (ln : List Char) : Option (Nat × Int) :=
  match findPat1 ln with
  | some r => some r
  | none => match findPat2 ln with
    | some r => some r
    | none => findPat3 ln

/-- `re.sub(r"[：:\-–—]+$", "", title)`. -/
def trimTrailConnector (s : String) : String :=
  ⟨(s.toList.reverse.dropWhile (fun c =>
      c = '：' || c = ':' || c = '-' || c = '–' || c = '—')).reverse⟩

/-- `_parse_stockin_text`: per line, extract the quantity (default 1), strip
it and trailing connectors from the title, and resolve the title; returns
`(items, errors, ambiguous)`. -/
def parseStockinText (catalog : List BookEntry) (body : String) :
    List (String × Int) × List String × List (String × List String) :=
  let lines := ((splitLines body).map pstrip).filter (· ≠ "")
  let acc := lines.foldl (fun acc ln =>
    let m := stockLineQty ln.toList
    let qty : Int := match m with | some iq => iq.2 | none => 1
    let title0 := match m with | some iq => pstrip ⟨ln.toList.take iq.1⟩ | none => ln
    let title := pstrip (trimTrailConnector title0)
    match resolveBookName catalog title with
    | .res b _ => (acc.1 ++ [(b, qty)], acc.2.1, acc.2.2)
    | .amb extra =>
      if !extra.isEmpty then (acc.1, acc.2.1, acc.2.2 ++ [(ln, extra.take 10)])
      else (acc.1, acc.2.1 ++ ["找不到書名：" ++ ln], acc.2.2)
    | .nf => (acc.1, acc.2.1 ++ ["找不到書名：" ++ ln], acc.2.2))
    (([], [], []) : List (String × Int) × List String × List (String × List String))
  if lines.isEmpty then (acc.1, acc.2.1 ++ ["沒有讀到任何內容"], acc.2.2) else acc

/-- The same-title merge of `_handle_stockin` (insertion-ordered dict). -/
def mergeItems (items : List (String × Int)) : List (String × Int) :=
  items.foldl (fun acc it =>
    if acc.any (·.1 = it.1) then
      acc.map (fun e => if e.1 = it.1 then (e.1, e.2 + it.2) else e)
    else acc ++ [it]) []

/-- `_handle_stockin`: parse, surface ambiguities/errors, else merge items
and stage a `stock_in_confirm` pending confirmation. -/
def handleStockin (catalog : List BookEntry) (st : BotState) (uid display text : String) :
    BotState × Option String :=
  let operator := if display = "" then "LINE使用者" else display
  let body := stripCmd2 "#買書" "#入庫" text
  let pea := parseStockinText catalog body
  if !pea.2.2.isEmpty then
    (st, some ("❗ 書名不夠明確：\n" ++ pyJoin "\n" (pea.2.2.map (fun rc =>
      "「" ++ rc.1 ++ "」可能是：" ++ pyJoin "、" rc.2))))
  else if !pea.2.1.isEmpty then
    (st, some ("❌ 入庫資料有誤：\n- " ++ pyJoin "\n- " pea.2.1))
  else if pea.1.isEmpty then (st, some "❌ 沒有可入庫的項目")
  else
    let items := mergeItems pea.1
    let hasNeg := items.any (·.2 < 0)
    ({ st with pending := setPend st.pending uid (.stockIn operator items) },
     some ("請確認入庫項目：\n" ++
       pyJoin "\n" (items.map (fun it => "• " ++ it.1 ++ " × " ++ toString it.2)) ++
       (if hasNeg then "\n\n※ 含負數（自動標示來源：盤點調整）" else "") ++
       "\n\n回覆「OK / YES / Y」確認；或回覆「N」取消。"))

/-- `_write_stockin_rows`: one 入庫明細 row per item, source 購買 for
non-negative quantities, 盤點調整 otherwise. -/
def writeStockinRows (today operator : String) (items : List (String × Int)) :
    List StockRow :=
  items.map (fun it =>
    { date := today, operator := operator, book := it.1, qty := it.2,
      src := if (0 : Int) ≤ it.2 then "購買" else "盤點調整", note := "" })

/-! ## Raw-order tidying (`_extract_books_and_note_from_text`,
`_parse_raw_to_order` — the later definitions in the file, which are the
ones Python keeps — and `_handle整理寄書`) -/

/-- Case-insensitive (ASCII) prefix test. -/
def ciStarts (hay pat : List Char) : Bool :=
  startsWithList (hay.map pyLowerChar) (pat.map pyLowerChar)

/-- `re.sub(re.escape(pat), " ", hay, flags=re.IGNORECASE)`: non-overlapping
left-to-right replacement of each occurrence by one space. -/
def replaceAllCI (pat hay : List Char) : List Char :=
  match hay with
  | [] => []
  | c :: t =>
    if !pat.isEmpty && ciStarts (c :: t) pat then
      ' ' :: replaceAllCI pat ((c :: t).drop pat.length)
    else c :: replaceAllCI pat t
termination_by hay.length
decreasing_by
all_goals (simp [List.length_drop]; try omega)
all_goals (cases pat <;> simp_all)

/-- `hay.replace(pat, " ")` (case-sensitive, all occurrences). -/
def replaceAllCS (pat hay : List Char) : List Char :=
  match hay with
  | [] => []
  | c :: t =>
    if !pat.isEmpty && startsWithList (c :: t) pat then
      ' ' :: replaceAllCS pat ((c :: t).drop pat.length)
    else c :: replaceAllCS pat t
termination_by hay.length
decreasing_by
all_goals (simp [List.length_drop]; try omega)
all_goals (cases pat <;> simp_all)

/-- `hay.replace(pat, "")` (delete all occurrences). -/
def removeAllCS (pat hay : List Char) : List Char :=
  match hay with
  | [] => []
  | c :: t =>
    if !pat.isEmpty && startsWithList (c :: t) pat then
      removeAllCS pat ((c :: t).drop pat.length)
    else c :: removeAllCS pat t
termination_by hay.length
decreasing_by
all_goals (simp [List.length_drop]; try omega)
all_goals (cases pat <;> simp_all)

/-- `re.sub(r"09\d{8}", " ", cs)`. -/
def removePhonePat (cs : List Char) : List Char :=
  match cs with
  | [] => []
  | c :: t =>
    if c = '0' && t.head? = some '9' && ((t.drop 1).take 8).length = 8 &&
        ((t.drop 1).take 8).all Char.isDigit then
      ' ' :: removePhonePat (t.drop 9)
    else c :: removePhonePat t
termination_by cs.length
decreasing_by
all_goals (simp [List.length_drop]; try omega)

/-- `re.sub(r"\s+", " ", cs)`: collapse whitespace runs to single spaces
(the flag records whether the previous character was whitespace). -/
def collapseWsFlag : List Char → Bool → List Char
  | [], _ => []
  | c :: t, prevSpace =>
    if pyIsSpace c then
      if prevSpace then collapseWsFlag t true else ' ' :: collapseWsFlag t true
    else c :: collapseWsFlag t false

/-- `re.sub(r"\s+", " ", cs)`. -/
def collapseWsGo (cs : List Char) : List Char := collapseWsFlag cs false

/-- The note-cleanup keyword list of `_extract_books_and_note_from_text`. -/
def ebKeywords : List String :=
  ["扣點", "補寄", "重寄", "改寄", "改地址", "贈送", "補書", "換書", "退回", "急件", "備註"]

/-- `_extract_books_and_note_from_text`: flatten all aliases longest-first,
match by whole containment (digit-compatible when the input has digits,
one hit per title), then strip the matched aliases, phone numbers and
keywords from the sentence to leave the note. -/
def extractBooksAndNote (catalog : List BookEntry) (userText : String) :
    List String × String :=
  let raw := pstrip userText
  let norm := normalizeForMatch raw
  if norm = "" then ([], raw)
  else
    let digitsIn := digitRuns raw
    let flat := sortDescBy (fun t3 => t3.2.2.toList.length)
      (catalog.flatMap (fun b => b.aliases.map (fun a => (b.title, a.raw, a.norm))))
    let mm := flat.foldl (fun acc t3 =>
      if acc.1.contains t3.1 then acc
      else if t3.2.2 = "" then acc
      else if !digitsIn.isEmpty &&
          !(digitRuns t3.2.1).any (fun d => digitsIn.contains d) then acc
      else if strContains norm t3.2.2 then (acc.1 ++ [t3.1], acc.2 ++ [t3.2.1])
      else acc) (([], []) : List String × List String)
    let note0 := (sortDescBy (fun a => a.toList.length) mm.2).foldl
      (fun n araw => (⟨replaceAllCI araw.toList n.toList⟩ : String)) raw
    let note1 : String := ⟨removePhonePat note0.toList⟩
    let note2 := ebKeywords.foldl
      (fun n w => (⟨replaceAllCS w.toList n.toList⟩ : String)) note1
    (mm.1, pstrip ⟨collapseWsGo note2.toList⟩)

/-- `s.strip(chars)` for a single character class. -/
def stripChars (p : Char → Bool) (cs : List Char) : List Char :=
  ((cs.dropWhile p).reverse.dropWhile p).reverse

/-- `re.search(r"(09\d{8})", s)`: the leftmost 10-digit `09…` occurrence. -/
def findPhoneIn (cs : List Char) : Option String :=
  (List.range cs.length).findSome? (fun i =>
    match cs.drop i with
    | '0' :: '9' :: rest =>
      if (rest.take 8).length = 8 && (rest.take 8).all Char.isDigit then
        some ((⟨'0' :: '9' :: rest.take 8⟩ : String))
      else none
    | _ => none)

/-- `(市|縣).*(區|鄉|鎮|市)`. -/
def hasCityDistrict : List Char → Bool
  | [] => false
  | c :: t =>
    ((c = '市' || c = '縣') &&
      t.any (fun d => d = '區' || d = '鄉' || d = '鎮' || d = '市')) || hasCityDistrict t

/-- The address-line test of `_parse_raw_to_order`
(`re.search(r"(市|縣).*(區|鄉|鎮|市)|路|街|段|巷|弄|號|樓", ln)`). -/
def addrLineMark (ln : String) : Bool :=
  ["路", "街", "段", "巷", "弄", "號", "樓"].any (fun k => strContains ln k) ||
  hasCityDistrict ln.toList

/-- `_parse_raw_to_order` (second definition): normalize quotes and fullwidth
spaces, pull out the phone, find the address line, split the first line into
name and book text, and extract books and note from the rest. -/
def parseRawToOrder (catalog : List BookEntry) (text : String) :
    Option RawParsed × List String :=
  let t0 : List Char := text.toList.map (fun c => if c.val = 0x3000 then ' ' else c)
  let t1 := stripChars (· = '\'') (stripChars (· = '"') (pstripList t0))
  let lines0 := (splitLines ⟨t1⟩).filterMap (fun ln =>
    if pstrip ln = "" then none
    else some ((⟨stripChars (· = '\'') (stripChars (· = '"') (pstripList ln.toList))⟩ : String)))
  if lines0.isEmpty then (none, ["❌ 沒有讀到任何內容"])
  else
    let phone := findPhoneIn (pyJoin " " lines0).toList
    let lines := match phone with
      | some p => lines0.map (fun ln => pstrip ⟨removeAllCS p.toList ln.toList⟩)
      | none => lines0
    let addrIdx := (List.enumFrom 0 lines).findSome? (fun il =>
      if 1 ≤ il.1 && addrLineMark il.2 then some il.1 else none)
    let address := addrIdx.map (fun i =>
      (⟨((lines.get? i).getD "").toList.filter (· ≠ ' ')⟩ : String))
    let first := lines.headD ""
    let namePfx := first.toList.takeWhile (fun c => !c.isDigit && !pyIsSpace c)
    let name := if namePfx.isEmpty then none else some ((⟨namePfx⟩ : String))
    let restFirst := if !namePfx.isEmpty then pstrip ⟨first.toList.drop namePfx.length⟩
                     else first
    let otherLines := (List.enumFrom 0 lines).filterMap (fun il =>
      if 1 ≤ il.1 && addrIdx ≠ some il.1 then some il.2 else none)
    let bn := extractBooksAndNote catalog (pyJoin " " (restFirst :: otherLines))
    (some { name := name, phone := phone, address := address, bookList := bn.1,
            bookRaw := if !bn.1.isEmpty then pyJoin "、" bn.1 else "",
            bizNote := bn.2 }, [])

/-- `_handle整理寄書` (second definition): parse the raw order, stage a
`整理寄書_confirm` pending confirmation, reply with the formatted draft. -/
def handleTidy (catalog : List BookEntry) (st : BotState) (uid text : String) :
    BotState × Option String :=
  let body := stripCmd1 "#整理寄書" text
  match parseRawToOrder catalog body with
  | (none, errs) => (st, some (pyJoin "\n" errs))
  | (some parsed, _) =>
    let msg := "#寄書\n姓名：" ++ pyShowOpt parsed.name ++ "\n電話：" ++
      pyShowOpt parsed.phone ++ "\n寄送地址：" ++ pyShowOpt parsed.address ++
      "\n書籍名稱：" ++ parsed.bookRaw ++ "\n備註：" ++ parsed.bizNote
    ({ st with pending := setPend st.pending uid (.tidy parsed) },
     some ("請確認以下資訊：\n\n" ++ msg ++ "\n\n回覆 OK / YES 確認；回覆 N 取消。"))

/-! ## Query (`_handle_query`) -/

/-- `a > b` on Python strings. -/
def strGtB (a b : String) : Bool := strLtList b.toList a.toList

/-- `a >= b` on Python strings. -/
def strGeB (a b : String) : Bool := !strLtList a.toList b.toList

/-- One merged display group of `_handle_query` (`groups[rid]`).  Python
keeps `status_any` as a `set`; it is modelled here as an insertion-ordered
duplicate-free list (the source only tests membership and takes an arbitrary
representative via `next(iter(...))`, modelled as the first-seen status). -/
structure QGroup where
  dt : String
  qname : String
  books : List String
  statusAny : List String
  shipOut : String
  shipVia : String
  shipNo : String
deriving DecidableEq, Repr

/-- The group seeded by `groups.setdefault(rid, {...})`. -/
def qgInit (r : Row) : QGroup :=
  { dt := r.createdAt, qname := r.stuName, books := [], statusAny := [],
    shipOut := "", shipVia := "", shipNo := "" }

/-- The per-row group update of `_handle_query`. -/
def qgUpdate (g : QGroup) (r : Row) : QGroup :=
  let g := if strGtB r.createdAt g.dt then { g with dt := r.createdAt } else g
  let g := { g with books := g.books ++ [pstrip r.book] }
  let stv := pstrip r.status
  let g := if stv ≠ "" && !g.statusAny.contains stv then
    { g with statusAny := g.statusAny ++ [stv] } else g
  let j := pstrip r.shipDate
  let iv := pstrip r.delivery
  let k := pstrip r.tracking
  if j ≠ "" || iv ≠ "" || k ≠ "" then
    if (g.shipOut = "" && g.shipVia = "" && g.shipNo = "") || strGeB r.createdAt g.dt then
      { g with shipOut := j, shipVia := iv, shipNo := k }
    else g
  else g

/-- The row filter of `_handle_query` (30-day window, not deleted, phone
suffix or name containment). -/
def queryFilter (since : DT) (q : String) (sheet : List Row) : List Row :=
  let phoneDigits := digitsOnly q
  let isPhone := 7 ≤ phoneDigits.toList.length
  sheet.filter (fun r =>
    if pstrip r.status = "已刪除" then false
    else if ((rowDT r).map (fun t => dtLt t since)).getD false then false
    else if isPhone then
      let cand := digitsOnly r.stuPhone
      9 ≤ cand.toList.length && lastN phoneDigits 9 = lastN cand 9
    else q ≠ "" && strContains r.stuName q)

/-- The RID-grouping loop of `_handle_query` (insertion-ordered dict). -/
def buildGroups (filtered : List Row) : List (String × QGroup) :=
  filtered.foldl (fun gs r =>
    let rid := pstrip r.rid
    if rid = "" then gs
    else if gs.any (·.1 = rid) then
      gs.map (fun e => if e.1 = rid then (e.1, qgUpdate e.2 r) else e)
    else gs ++ [(rid, qgUpdate (qgInit r) r)]) []

/-- Stable insertion, descending by a string key. -/
def insDescByStr (key : α → String) (x : α) : List α → List α
  | [] => [x]
  | y :: t => if !strLtList (key x).toList (key y).toList then x :: y :: t
              else y :: insDescByStr key x t

/-- Stable sort, descending by a string key. -/
def sortDescByStr (key : α → String) (l : List α) : List α := l.foldr (insDescByStr key) []

/-- Ascending insertion on strings (for `sorted(...)` over distinct values). -/
def insStrAsc (x : String) : List String → List String
  | [] => [x]
  | y :: t => if !strLtList y.toList x.toList then x :: y :: t else y :: insStrAsc x t

/-- `sorted` on strings. -/
def sortStrAsc (l : List String) : List String := l.foldr insStrAsc []

/-- Order-preserving de-duplication (for `set(...)` feeding `sorted`). -/
def dedupKeepFirst (l : List String) : List String :=
  l.foldl (fun acc x => if acc.contains x then acc else acc ++ [x]) []

/-- `_handle_query`: filter, group by record id, sort groups by creation
time (string order) descending, render the top five. -/
def handleQuery (clock : Clock) (st : BotState) (text : String) :
    BotState × Option String :=
  let q := stripCmd2 "#查詢寄書" "#查寄書" text
  let filtered := queryFilter clock.since q st.sheet
  if filtered.isEmpty then
    (st, some "❌ 查無近 30 天內的寄書紀錄，請確認姓名或電話是否正確。")
  else
    let ordered := (sortDescByStr (fun e => e.2.dt) (buildGroups filtered)).take 5
    let blocks := ordered.map (fun e =>
      let g := e.2
      let books := pyJoin "、" (sortStrAsc (dedupKeepFirst (g.books.filter (· ≠ ""))))
      if g.statusAny.contains "已託運" then
        pyJoin "\n" (["📦 " ++ g.qname ++ "（" ++ e.1 ++ "）：" ++ books] ++
          (if g.shipOut ≠ "" then ["已於 " ++ g.shipOut] else []) ++
          (if g.shipVia ≠ "" then ["由 " ++ g.shipVia ++ " 寄出"] else []) ++
          (if g.shipNo ≠ "" then ["託運單號：" ++ g.shipNo] else []))
      else
        "📦 " ++ g.qname ++ "（" ++ e.1 ++ "）：" ++ books ++ " " ++
          g.statusAny.headD "待處理")
    (st, some (pyJoin "\n\n" blocks))

/-! ## Shipment undo (`_handle_delete_ship`) -/

/-- First maximum by creation-time string (ties keep the earlier row),
equivalent to the stable descending sort plus `[0]` of the source. -/
def pickMaxStrGo (best : Nat × Row) : List (Nat × Row) → Nat × Row
  | [] => best
  | c :: t => if strGtB c.2.createdAt best.2.createdAt then pickMaxStrGo c t
              else pickMaxStrGo best t

/-- `_handle_delete_ship`: find the latest shipped (or ship-field-bearing)
row matching name/phone within the window, clear its shipping fields and
reset the status to 待處理 with an audit note. -/
def handleDeleteShip (clock : Clock) (st : BotState) (display text : String) :
    BotState × Option String :=
  let operator := if display = "" then "LINE使用者" else display
  let np := extractShipDeleteTarget text
  let sfx := phoneSuffix np.2
  let cands := (List.enumFrom 2 st.sheet).filterMap (fun ir =>
    let r := ir.2
    if ((rowDT r).map (fun t => dtLt t clock.since)).getD false then none
    else
      let shipped := pstrip r.status = "已託運" || r.shipDate ≠ "" || r.tracking ≠ ""
      if rowMatches np.1 sfx r && shipped then some ir else none)
  match cands with
  | [] => (st, some "❌ 找不到可撤銷的出書紀錄（近30天）")
  | c :: t =>
    let chosen := pickMaxStrGo c t
    let sheet2 := modifyIdx (chosen.1 - 2) (fun r =>
      { r with note := appendNote r.note ("[撤銷出書 " ++ clock.nowMin ++ "]"),
               shipDate := "", tracking := "", handlerBy := operator,
               status := "待處理" }) st.sheet
    ({ st with sheet := sheet2 }, some "✅ 已撤銷最近一筆出書：欄位已清空並恢復為待處理")

/-! ## Pending answers and the text dispatcher
(`_handle_pending_answer`, `handle_text_message`) -/

/-- `_handle_pending_answer`: with no slot, or an answer outside
`Y/N/YES/OK` (uppercased, stripped), the message is not consumed and the
slot is left untouched.  `N` clears the slot; an affirmative executes the
staged action and clears the slot.  The duplicated `整理寄書_confirm`
branch of the source is dead code (the first one returns). -/
def handlePendingAnswer (catalog : List BookEntry) (zipT : List (String × String))
    (clock : Clock) (st : BotState) (uid display text : String) :
    Bool × BotState × Option String :=
  match lookupPend st.pending uid with
  | none => (false, st, none)
  | some pend =>
    let ans := pyUpper (pstrip text)
    if ans ≠ "Y" && ans ≠ "N" && ans ≠ "YES" && ans ≠ "OK" then (false, st, none)
    else if ans = "N" then
      (true, { st with pending := popPend st.pending uid }, some "已取消。")
    else
      match pend with
      | .cancelOrder rid rows stu bookList operator =>
        (true, { st with sheet := applyCancelRows st.sheet rows operator clock.nowMin,
                         pending := popPend st.pending uid },
         some ("✅ 已刪除整筆寄書（" ++ rid ++ "）：" ++ stu ++ " 的 " ++ bookList))
      | .stockIn operator items =>
        (true, { st with stock := st.stock ++ writeStockinRows clock.today operator items,
                         pending := popPend st.pending uid },
         some ("✅ 入庫完成：\n" ++
           pyJoin "\n" (items.map (fun it => it.1 ++ " × " ++ toString it.2))))
      | .tidy data =>
        let fake := "#寄書\n姓名：" ++ pyShowOpt data.name ++ "\n電話：" ++
          pyShowOpt data.phone ++ "\n寄送地址：" ++ pyShowOpt data.address ++
          "\n書籍名稱：" ++ data.bookRaw ++ "\n業務備註：" ++ data.bizNote
        let sr := handleNewOrder catalog zipT clock st display fake
        (true, { sr.1 with pending := popPend sr.1.pending uid }, sr.2)

/-- `handle_text_message`: `#我的ID` first, then the pending-answer gate,
then the whitelist, then the command prefixes in source order.  `auth`
models `_ensure_authorized` (whitelist/admin decision); the OCR session set
by `#出書` lives in `st.ocr` with its expiry epoch. -/
def handleTextMessage (catalog : List BookEntry) (zipT : List (String × String))
    (clock : Clock) (auth : Bool) (st : BotState) (uid display text : String) :
    BotState × Option String :=
  let t := pstrip text
  if strStarts t "#我的ID" then
    (st, some ("你的 ID：\n" ++ uid ++ "\n顯示名稱：" ++
      (if display = "" then "LINE使用者" else display) ++ "\n\n請提供給管理員加入白名單。"))
  else
    let pa := handlePendingAnswer catalog zipT clock st uid display t
    if pa.1 then (pa.2.1, pa.2.2)
    else if !auth then
      (st, some ("❌ 尚未授權使用。\n請將此 ID 提供給管理員開通：\n" ++ uid ++
        "\n\n（提示：傳「#我的ID」也能取得這串 ID）"))
    else if strStarts t "#整理寄書" then handleTidy catalog st uid t
    else if strStarts t "#寄書" then handleNewOrder catalog zipT clock st display t
    else if strStarts t "#查詢寄書" || strStarts t "#查寄書" then handleQuery clock st t
    else if strStarts t "#取消寄書" || strStarts t "#刪除寄書" then
      handleCancelRequest clock st uid display t
    else if strStarts t "#刪除出書" || strStarts t "#取消出書" then
      handleDeleteShip clock st display t
    else if strStarts t "#出書" then
      ({ st with ocr := (uid, clock.epoch + 10 * 60) :: st.ocr.filter (·.1 ≠ uid) },
       some "已啟用出書OCR（10 分鐘）。請上傳出貨單照片。")
    else if strStarts t "#買書" || strStarts t "#入庫" then
      handleStockin catalog st uid display t
    else (st, none)

/-! ## Concrete fixtures used by the example-level theorems -/

/-- A fixed clock: 2025-01-02 03:04 with the 30-day cutoff 2024-12-03. -/
def demoClock : Clock := ⟨"2025-01-02 03:04", "2025-01-02", ⟨2024, 12, 3, 3, 4⟩, 1000⟩

/-- The geo rows of the spec's example, in the given order. -/
def demoZipRows : List (String × String) := [("台北市中正區", "10001"), ("台北市", "10000")]

/-- A one-entry geo table using the 台 script form. -/
def demoZipTaipei : List (String × String) := loadZipref [("台北市", "100")]

/-- The catalog of the digit-narrowing example. -/
def demoCatalog56 : List BookEntry :=
  buildBookIndex [⟨"Book 5", "B5、Go5", "使用中"⟩, ⟨"Book 6", "B6、Go6", "使用中"⟩]

/-- Two books whose aliases differ in one trailing letter (both at fuzzy
ratio 0.8 from `abcdx`). -/
def demoCatalogAB : List BookEntry :=
  buildBookIndex [⟨"Alpha", "abcde", "使用中"⟩, ⟨"Beta", "abcdf", "使用中"⟩]

/-- Single-letter titles for the `"A, B, C"` ordering example. -/
def demoCatalogABC : List BookEntry :=
  buildBookIndex [⟨"A", "A", "使用中"⟩, ⟨"B", "B", "使用中"⟩, ⟨"C", "C", "使用中"⟩]

/-- A pending sheet row created by 王哥 for 王小明. -/
def demoRow (rid bk stv : String) : Row :=
  ⟨rid, "2025-01-01 10:00", "王哥", "王小明", "'0912345678", "台北市信義路1號",
   bk, "", "宅配", "", "", "", stv⟩

/-- Two R0001 rows and one R0002 row, all pending. -/
def demoSheet : List Row :=
  [demoRow "R0001" "A" "待處理", demoRow "R0001" "B" "待處理", demoRow "R0002" "C" "待處理"]

/-- The same sheet with the second R0001 row already shipped. -/
def demoSheetShipped : List Row :=
  [demoRow "R0001" "A" "待處理",
   { demoRow "R0001" "B" "已託運" with shipDate := "2025-01-02",
                                      tracking := "123456789012" },
   demoRow "R0002" "C" "待處理"]

/-- A cancel command for the demo order. -/
def demoCancelText : String := "#取消寄書 王小明 0912345678"

/-- The staged cancel confirmation for the two R0001 rows. -/
def demoPendCancel : Pend := Pend.cancelOrder "R0001" [2, 3] "王小明" "A、B" "王哥"

/-- State with an empty pending store. -/
def demoState : BotState := ⟨demoSheet, [], [], []⟩

/-- State whose user `U1` holds the staged cancel confirmation. -/
def demoStatePend : BotState := ⟨demoSheet, [], [("U1", demoPendCancel)], []⟩

/-- A well-formed create-order message with three books. -/
def demoNewOrderText : String :=
  "#寄書\n姓名：王小明\n電話：0912345678\n寄送地址：台北市中正區八德路1號\n書籍名稱：A, B, C"

/-- A create-order message whose single book token is ambiguous. -/
def demoAmbText : String :=
  "#寄書\n姓名：王小明\n電話：0912345678\n寄送地址：高雄市左營區博愛二路99號\n書籍名稱：abcdx"

/-- Lines of an OCR text whose identifier and tracking token are 999
non-blank lines apart. -/
def bigOcrLines : List String := "R0001" :: (List.replicate 998 "x" ++ ["987654321098"])

/-- An OCR text whose identifier and tracking token are 999 non-blank lines
apart. -/
def bigOcrText : String := pyJoin "\n" bigOcrLines

/-!
# Theorems

Helper lemmas first, then one named theorem per claim (with its witness or
counterexample where required).
-/

/-- An empty string is `String.mk []`. -/
theorem stringMkNeEmpty (c : Char) (cs : List Char) : (⟨c :: cs⟩ : String) ≠ "" := by
  intro h
  exact List.noConfusion (congrArg String.data h)

/-- `lookupZipGo` only returns codes of entries whose prefix occurs, and the
first hit of a length-sorted table is a longest hit. -/
theorem lookupZipGo_spec (a : String) :
    ∀ table : List (String × String),
      table.Pairwise (fun x y => y.1.toList.length ≤ x.1.toList.length) →
      ∀ z, lookupZipGo a table = some z →
        ∃ p, (p, z) ∈ table ∧ strContains a p = true ∧
          ∀ q w, (q, w) ∈ table → strContains a q = true →
            q.toList.length ≤ p.toList.length := by
  intro table
  induction table with
  | nil => intro _ z h; simp [lookupZipGo] at h
  | cons e t ih =>
    intro hp z h
    obtain ⟨p1, z1⟩ := e
    rw [lookupZipGo] at h
    rw [List.pairwise_cons] at hp
    by_cases hc : strContains a p1 = true
    · simp [hc] at h
      subst h
      refine ⟨p1, by simp, hc, ?_⟩
      intro q w hm _
      rcases List.mem_cons.mp hm with h1 | h1
      · rw [Prod.mk.injEq] at h1
        rw [h1.1]
      · exact hp.1 (q, w) h1
    · simp [hc] at h
      obtain ⟨p, hmem, hcon, hmax⟩ := ih hp.2 z h
      refine ⟨p, List.mem_cons_of_mem _ hmem, hcon, ?_⟩
      intro q w hm hq
      rcases List.mem_cons.mp hm with h1 | h1
      · cases h1; simp_all
      · exact hmax q w h1 hq

/-- Membership in an insertion. -/
theorem mem_insDescBy (key : α → Nat) (x z : α) :
    ∀ l : List α, z ∈ insDescBy key x l ↔ z = x ∨ z ∈ l := by
  intro l
  induction l with
  | nil => simp [insDescBy]
  | cons y t ih =>
    rw [insDescBy]
    by_cases h : key y ≤ key x
    · simp [h]
    · simp [h, ih]
      tauto

/-- Insertion preserves descending sortedness by `key`. -/
theorem pairwise_insDescBy (key : α → Nat) (x : α) :
    ∀ l : List α, l.Pairwise (fun a b => key b ≤ key a) →
      (insDescBy key x l).Pairwise (fun a b => key b ≤ key a) := by
  intro l
  induction l with
  | nil => intro _; simp [insDescBy]
  | cons y t ih =>
    intro hp
    rw [List.pairwise_cons] at hp
    rw [insDescBy]
    by_cases h : key y ≤ key x
    · rw [if_pos h]
      refine List.pairwise_cons.mpr ⟨?_, List.pairwise_cons.mpr hp⟩
      intro z hz
      rcases List.mem_cons.mp hz with h1 | h1
      · subst h1; exact h
      · exact le_trans (hp.1 z h1) h
    · rw [if_neg h]
      refine List.pairwise_cons.mpr ⟨?_, ih hp.2⟩
      intro z hz
      rcases (mem_insDescBy key x z t).mp hz with h1 | h1
      · subst h1; omega
      · exact hp.1 z h1

/-- `sortDescBy` sorts descending by `key`. -/
theorem pairwise_sortDescBy (key : α → Nat) (l : List α) :
    (sortDescBy key l).Pairwise (fun a b => key b ≤ key a) := by
  induction l with
  | nil => simp [sortDescBy]
  | cons y t ih => exact pairwise_insDescBy key y _ ih

/-- C7: geo entries are sorted by prefix length descending at load time and
`lookup_zip` returns the first containment hit, so a successful lookup comes
from a matching entry of maximal prefix length; in particular, with the
spec's two entries every address containing 台北市中正區 resolves to 10001,
not 10000. -/
theorem C7_geo_longest_first :
    (∀ (rows : List (String × String)) (a z : String),
      lookupZip (loadZipref rows) a = some z →
      ∃ p, (p, z) ∈ loadZipref rows ∧ strContains (pstrip a) p = true ∧
        ∀ q w, (q, w) ∈ loadZipref rows → strContains (pstrip a) q = true →
          q.toList.length ≤ p.toList.length)
    ∧ (∀ a : String, strContains (pstrip a) "台北市中正區" = true →
        lookupZip (loadZipref demoZipRows) a = some "10001") := by
  constructor
  · intro rows a z h
    rw [lookupZip] at h
    by_cases ha : a = ""
    · rw [if_pos ha] at h; exact absurd h (by simp)
    · rw [if_neg ha] at h
      exact lookupZipGo_spec (pstrip a) (loadZipref rows)
        (pairwise_sortDescBy _ _) z h
  · intro a hc
    have ha : a ≠ "" := by
      intro h
      subst h
      exact absurd hc (by decide)
    have htab : loadZipref demoZipRows =
        [("台北市中正區", "10001"), ("台北市", "10000")] := by decide
    rw [lookupZip, if_neg ha, htab, lookupZipGo, if_pos hc]

/-- Witness for C7 at the spec's own example address. -/
theorem C7_geo_longest_first_witness :
    (∃ p, (p, "10001") ∈ loadZipref demoZipRows ∧
      strContains (pstrip "台北市中正區八德路") p = true ∧
      ∀ q w, (q, w) ∈ loadZipref demoZipRows →
        strContains (pstrip "台北市中正區八德路") q = true →
        q.toList.length ≤ p.toList.length)
    ∧ lookupZip (loadZipref demoZipRows) "台北市中正區八德路" = some "10001" :=
  ⟨C7_geo_longest_first.1 demoZipRows "台北市中正區八德路" "10001" (by decide),
   C7_geo_longest_first.2 "台北市中正區八德路" (by decide)⟩

/-- C8 counterexample: `lookup_zip` performs no 台/臺 normalization — the
same address written with 臺 fails to resolve against a 台-form table, so
the claimed script-form invariance is false. -/
theorem C8_counterexample :
    lookupZip demoZipTaipei "台北市中正區八德路" = some "100" ∧
    lookupZip demoZipTaipei "臺北市中正區八德路" = none := by decide

/-- C8 (amended): `lookup_zip` matches prefixes verbatim: if no table prefix
occurs in the stripped address — even when only a script variant of a prefix
occurs — the lookup returns `None`. -/
theorem C8_verbatim_containment_amended :
    ∀ (table : List (String × String)) (a : String),
      (∀ pz ∈ table, strContains (pstrip a) pz.1 = false) →
      lookupZip table a = none := by
  intro table a h
  rw [lookupZip]
  by_cases ha : a = ""
  · rw [if_pos ha]
  · rw [if_neg ha]
    induction table with
    | nil => rfl
    | cons e t ih =>
      rw [lookupZipGo]
      obtain ⟨p, z⟩ := e
      rw [if_neg (by simpa using h (p, z) (by simp))]
      exact ih (fun pz hm => h pz (List.mem_cons_of_mem _ hm))

/-- Witness for the amended C8 on the 臺-script address. -/
theorem C8_verbatim_containment_amended_witness :
    (∀ pz ∈ demoZipTaipei, strContains (pstrip "臺北市中正區八德路") pz.1 = false)
    ∧ lookupZip demoZipTaipei "臺北市中正區八德路" = none :=
  ⟨by decide,
   C8_verbatim_containment_amended demoZipTaipei "臺北市中正區八德路" (by decide)⟩

/-- Two sufficient fuels agree. -/
theorem natToDecGo_fuel : ∀ (n f1 f2 : Nat), n < f1 → n < f2 →
    natToDecGo f1 n = natToDecGo f2 n := by
  intro n
  induction n using Nat.strong_induction_on with
  | _ n ih =>
    intro f1 f2 h1 h2
    match f1, f2 with
    | k1 + 1, k2 + 1 =>
      rw [natToDecGo, natToDecGo]
      by_cases h : n < 10
      · rw [if_pos h, if_pos h]
      · rw [if_neg h, if_neg h]
        have hlt : n / 10 < n := Nat.div_lt_self (by omega) (by omega)
        rw [ih (n / 10) hlt k1 k2 (by omega) (by omega)]

/-- Unfolding equation of `natToDec`. -/
theorem natToDec_eq (n : Nat) : natToDec n =
    if n < 10 then [Char.ofNat (48 + n)]
    else natToDec (n / 10) ++ [Char.ofNat (48 + n % 10)] := by
  rw [natToDec, natToDecGo]
  by_cases h : n < 10
  · rw [if_pos h, if_pos h]
  · rw [if_neg h, if_neg h, natToDec,
      natToDecGo_fuel (n / 10) n (n / 10 + 1)
        (Nat.div_lt_self (by omega) (by omega)) (by omega)]

/-- The three facts needed about one digit character. -/
theorem digitChar_spec : ∀ d : Nat, d < 10 →
    (Char.ofNat (48 + d)).isDigit = true ∧ pyIsSpace (Char.ofNat (48 + d)) = false ∧
    digitVal (Char.ofNat (48 + d)) = d := by
  intro d hd
  interval_cases d <;> exact ⟨by decide, by decide, by decide⟩

/-- Every character of `natToDec` is a non-whitespace digit. -/
theorem natToDec_chars : ∀ n : Nat, ∀ c ∈ natToDec n,
    c.isDigit = true ∧ pyIsSpace c = false := by
  intro n
  induction n using Nat.strong_induction_on with
  | _ n ih =>
    intro c hc
    rw [natToDec_eq] at hc
    split at hc
    · rename_i h
      simp at hc
      subst hc
      exact ⟨(digitChar_spec n h).1, (digitChar_spec n h).2.1⟩
    · rename_i h
      rcases List.mem_append.mp hc with h1 | h1
      · exact ih (n / 10) (Nat.div_lt_self (by omega) (by omega)) c h1
      · simp at h1
        subst h1
        have hm : n % 10 < 10 := Nat.mod_lt _ (by omega)
        exact ⟨(digitChar_spec _ hm).1, (digitChar_spec _ hm).2.1⟩

/-- `digitsVal` peels the last digit. -/
theorem digitsVal_append1 (xs : List Char) (c : Char) :
    digitsVal (xs ++ [c]) = digitsVal xs * 10 + digitVal c := by
  simp [digitsVal, List.foldl_append]

/-- Decimal printing round-trips through `digitsVal`. -/
theorem digitsVal_natToDec : ∀ n : Nat, digitsVal (natToDec n) = n := by
  intro n
  induction n using Nat.strong_induction_on with
  | _ n ih =>
    rw [natToDec_eq]
    split
    · rename_i h
      simp [digitsVal, (digitChar_spec n h).2.2]
    · rename_i h
      rw [digitsVal_append1, ih (n / 10) (Nat.div_lt_self (by omega) (by omega))]
      have hm : n % 10 < 10 := Nat.mod_lt _ (by omega)
      rw [(digitChar_spec _ hm).2.2]
      omega

/-- `n < 10^k` prints in at most `k` digits. -/
theorem natToDec_len_pow : ∀ k n : Nat, 1 ≤ k → n < 10 ^ k →
    (natToDec n).length ≤ k := by
  intro k
  induction k with
  | zero => omega
  | succ k ih =>
    intro n _ hn
    rw [natToDec_eq]
    split
    · simp
    · rename_i h
      rw [List.length_append]
      have hk : 1 ≤ k := by
        by_contra hk0
        have : k = 0 := by omega
        subst this
        simp at hn
        omega
      have hdiv : n / 10 < 10 ^ k := by
        rw [Nat.div_lt_iff_lt_mul (by omega)]
        calc n < 10 ^ (k + 1) := hn
        _ = 10 ^ k * 10 := by ring
      have := ih (n / 10) hk hdiv
      simp
      omega

/-- Leading zeros do not change the value. -/
theorem digitsVal_zeros (k : Nat) (xs : List Char) :
    digitsVal (List.replicate k '0' ++ xs) = digitsVal xs := by
  induction k with
  | zero => simp
  | succ k ih =>
    rw [List.replicate_succ, List.cons_append]
    show List.foldl _ ((0 : Nat) * 10 + digitVal '0') _ = _
    have h0 : (0 : Nat) * 10 + digitVal '0' = 0 := by decide
    rw [h0]
    exact ih

/-- `dropWhile` is the identity on predicate-free lists. -/
theorem dropWhile_noop (p : Char → Bool) (l : List Char)
    (h : ∀ c ∈ l, p c = false) : l.dropWhile p = l := by
  cases l with
  | nil => rfl
  | cons c t =>
    rw [List.dropWhile_cons, if_neg]
    simp [h c (by simp)]

/-- `strip()` is the identity on whitespace-free strings. -/
theorem pstrip_noop (cs : List Char) (h : ∀ c ∈ cs, pyIsSpace c = false) :
    pstripList cs = cs := by
  unfold pstripList
  rw [dropWhile_noop _ _ h, dropWhile_noop, List.reverse_reverse]
  intro c hc
  exact h c (by simpa using hc)

/-- `natToDec` is never empty. -/
theorem natToDec_ne_nil (n : Nat) : natToDec n ≠ [] := by
  rw [natToDec_eq]
  split <;> simp

/-- For `1 ≤ n ≤ 9999`, the generated identifier parses back to `n`. -/
theorem parseRid_rFormat (n : Nat) (hn1 : 1 ≤ n) (hn2 : n ≤ 9999) :
    parseRid ⟨'R' :: pad4 n⟩ = some n := by
  have hlen : (natToDec n).length ≤ 4 := natToDec_len_pow 4 n (by omega) (by omega)
  have hchars := natToDec_chars n
  have hplen : (pad4 n).length = 4 := by
    simp [pad4]
    omega
  have hpchars : ∀ c ∈ pad4 n, c.isDigit = true ∧ pyIsSpace c = false := by
    intro c hc
    rcases List.mem_append.mp hc with h | h
    · have : c = '0' := List.eq_of_mem_replicate h
      subst this
      exact ⟨by decide, by decide⟩
    · exact hchars c h
  have hval : digitsVal (pad4 n) = n := by
    rw [pad4, digitsVal_zeros, digitsVal_natToDec]
  have hstrip : pstripList ('R' :: pad4 n) = 'R' :: pad4 n := by
    apply pstrip_noop
    intro c hc
    rcases List.mem_cons.mp hc with h | h
    · subst h; decide
    · exact (hpchars c h).2
  rcases hp : pad4 n with _ | ⟨a, _ | ⟨b, _ | ⟨c, _ | ⟨d, _ | e⟩⟩⟩⟩ <;>
    rw [hp] at hplen <;> simp at hplen
  rw [hp] at hstrip hval hpchars
  have ha := hpchars a (by simp)
  have hb := hpchars b (by simp)
  have hc := hpchars c (by simp)
  have hd := hpchars d (by simp)
  rw [parseRid]
  show (match pstripList ('R' :: [a, b, c, d]) with
    | [r, a, b, c, d] =>
      if r = 'R' && a.isDigit && b.isDigit && c.isDigit && d.isDigit
      then some (digitsVal [a, b, c, d]) else none
    | _ => none) = some n
  rw [show ('R' :: [a, b, c, d]) = ['R', a, b, c, d] from rfl] at hstrip
  rw [hstrip]
  simp [ha.1, hb.1, hc.1, hd.1, hval]

/-- One scan step never lowers the running maximum. -/
theorem ridStep_le (acc : Nat) (v : String) : acc ≤ ridStep acc v := by
  rw [ridStep]
  cases parseRid v <;> simp

/-- The scan is monotone in its accumulator's starting value. -/
theorem foldl_ridStep_mono : ∀ (l : List String) (acc : Nat),
    acc ≤ l.foldl ridStep acc := by
  intro l
  induction l with
  | nil => simp
  | cons v t ih =>
    intro acc
    exact le_trans (ridStep_le acc v) (ih (ridStep acc v))

/-- Every well-formed identifier of the column is bounded by the scan. -/
theorem mem_le_foldl_rid : ∀ (l : List String) (acc : Nat) (v : String) (m : Nat),
    v ∈ l → parseRid v = some m → m ≤ l.foldl ridStep acc := by
  intro l
  induction l with
  | nil => intro _ _ _ h; simp at h
  | cons w t ih =>
    intro acc v m hm hp
    rcases List.mem_cons.mp hm with h | h
    · subst h
      rw [List.foldl_cons]
      refine le_trans ?_ (foldl_ridStep_mono t (ridStep acc v))
      rw [ridStep, hp]
      simp
    · exact ih (ridStep acc w) v m h hp

/-- C9 counterexample: with an existing `R9999` the generated identifier is
`R10000` — five digits, no longer matching the claimed `R` + exactly four
zero-padded digits format. -/
theorem C9_counterexample :
    genNextRecordId ["R9999"] = "R10000" ∧ parseRid "R10000" = none := by decide

/-- C9 (amended): the generated identifier's numeric part is one plus the
maximum over all existing well-formed `R\d{4}` identifiers (hence strictly
greater than each of them), and as long as that maximum is below 9999 the
identifier printed is `R` followed by exactly four zero-padded digits. -/
theorem C9_record_id_amended (col : List String) :
    (∀ v ∈ col, ∀ m, parseRid v = some m → m < maxRidNo col + 1)
    ∧ (maxRidNo col < 9999 →
        parseRid (genNextRecordId col) = some (maxRidNo col + 1)) := by
  constructor
  · intro v hv m hp
    have := mem_le_foldl_rid col 0 v m hv hp
    rw [maxRidNo]
    omega
  · intro h
    rw [genNextRecordId]
    exact parseRid_rFormat (maxRidNo col + 1) (by omega) (by omega)

/-- Witness for the amended C9 on a concrete column. -/
theorem C9_record_id_amended_witness :
    (parseRid "R0007" = some 7 ∧ 7 < maxRidNo ["R0007", "xx"] + 1)
    ∧ (maxRidNo ["R0007", "xx"] < 9999 ∧
        parseRid (genNextRecordId ["R0007", "xx"]) = some (maxRidNo ["R0007", "xx"] + 1)) :=
  ⟨⟨by decide, (C9_record_id_amended ["R0007", "xx"]).1 "R0007" (by decide) 7 (by decide)⟩,
   ⟨by decide, (C9_record_id_amended ["R0007", "xx"]).2 (by decide)⟩⟩



/-- A terminator-free chunk is one line. -/
theorem splitLinesGo_noterm : ∀ (cs : List Char) (acc : List Char),
    (∀ c ∈ cs, c ≠ '\n' ∧ c ≠ '\r') →
    splitLinesGo cs acc false = [acc.reverse ++ cs] := by
  intro cs
  induction cs with
  | nil => intro acc _; simp [splitLinesGo]
  | cons c t ih =>
    intro acc h
    have hc := h c (by simp)
    rw [splitLinesGo]
    rw [if_neg (by simp [hc.1]), if_neg hc.2, if_neg hc.1,
        ih (c :: acc) (fun d hd => h d (by simp [hd]))]
    simp

/-- Splitting peels one terminator-free line before a `\n`. -/
theorem splitLinesGo_append : ∀ (cs : List Char) (rest acc : List Char),
    (∀ c ∈ cs, c ≠ '\n' ∧ c ≠ '\r') →
    splitLinesGo (cs ++ '\n' :: rest) acc false =
      (acc.reverse ++ cs) :: splitLinesGo rest [] false := by
  intro cs
  induction cs with
  | nil =>
    intro rest acc _
    rw [List.nil_append, splitLinesGo]
    rw [if_neg (by simp), if_neg (by decide), if_pos rfl]
    simp
  | cons c t ih =>
    intro rest acc h
    have hc := h c (by simp)
    rw [List.cons_append, splitLinesGo]
    rw [if_neg (by simp [hc.1]), if_neg hc.2, if_neg hc.1,
        ih rest (c :: acc) (fun d hd => h d (by simp [hd]))]
    simp

/-- Splitting a `"\n"`-join of terminator-free lines recovers the lines. -/
theorem splitLinesGo_join : ∀ (lines : List String),
    lines ≠ [] → (∀ ln ∈ lines, ∀ c ∈ ln.toList, c ≠ '\n' ∧ c ≠ '\r') →
    splitLinesGo (pyJoin "\n" lines).toList [] false = lines.map String.toList := by
  intro lines
  induction lines with
  | nil => intro h; exact absurd rfl h
  | cons x t ih =>
    intro _ h
    cases t with
    | nil =>
      rw [pyJoin, splitLinesGo_noterm x.toList [] (h x (by simp))]
      simp
    | cons y t2 =>
      rw [pyJoin]
      have hdata : (x ++ "\n" ++ pyJoin "\n" (y :: t2)).toList
          = x.toList ++ '\n' :: (pyJoin "\n" (y :: t2)).toList := by
        show (x ++ "\n" ++ pyJoin "\n" (y :: t2)).data = _
        rw [String.data_append, String.data_append]
        simp [String.toList]
      rw [hdata, splitLinesGo_append x.toList _ [] (h x (by simp)),
          ih (by simp) (fun ln hln => h ln (by simp [hln]))]
      simp

/-- `splitLines` inverts `pyJoin "\n"` on non-empty, terminator-free lines. -/
theorem splitLines_join : ∀ (lines : List String),
    lines ≠ [] → (∀ ln ∈ lines, ln ≠ "" ∧ ∀ c ∈ ln.toList, c ≠ '\n' ∧ c ≠ '\r') →
    splitLines (pyJoin "\n" lines) = lines := by
  intro lines hne h
  have hgo := splitLinesGo_join lines hne (fun ln hln => (h ln hln).2)
  rw [splitLines]
  have hjoinne : (pyJoin "\n" lines).toList ≠ [] := by
    intro habs
    have h2 : splitLinesGo (pyJoin "\n" lines).toList [] false = [[]] := by
      rw [habs]; rfl
    rw [hgo] at h2
    cases lines with
    | nil => exact hne rfl
    | cons x t =>
      cases t with
      | nil =>
        simp at h2
        refine (h x (by simp)).1 ?_
        cases x with
        | mk d => simp_all [String.toList]
      | cons y t2 => simp at h2
  rw [if_neg (by simpa using hjoinne), hgo]
  have hmapne : lines.map String.toList ≠ [] := by simp [hne]
  obtain ⟨z, zs, hz⟩ := List.exists_cons_of_ne_nil (List.reverse_ne_nil_iff.mpr hmapne)
  have hzmem : z ∈ lines.map String.toList := by
    have hzr : z ∈ (lines.map String.toList).reverse := by rw [hz]; simp
    simpa using hzr
  obtain ⟨ln, hln, hlneq⟩ := List.mem_map.mp hzmem
  have hz_ne : z.isEmpty = false := by
    subst hlneq
    have h1 := (h ln hln).1
    cases ln with
    | mk d =>
      cases d with
      | nil => exact absurd rfl h1
      | cons a b => rfl
  have hid : (fun cs => (⟨cs⟩ : String)) ∘ String.toList = id := by
    funext s
    cases s
    rfl
  simp only [hz]
  simp [hz_ne, List.map_map, hid]



/-- Collecting over token-free repeated lines yields nothing. -/
theorem flatMap_enumFrom_replicate (G : Nat × String → List (String × Nat)) (c : String)
    (hG : ∀ i, G (i, c) = []) :
    ∀ (n k : Nat), (List.enumFrom k (List.replicate n c)).flatMap G = [] := by
  intro n
  induction n with
  | zero => intro k; simp
  | succ n ih =>
    intro k
    rw [List.replicate_succ, List.enumFrom_cons, List.flatMap_cons, hG, ih]
    rfl

/-- The big OCR fixture lines are non-empty and terminator-free. -/
theorem bigOcr_lines_ok :
    ∀ ln ∈ bigOcrLines, ln ≠ "" ∧ ∀ c ∈ ln.toList, c ≠ '\n' ∧ c ≠ '\r' := by
  intro ln hln
  rw [bigOcrLines] at hln
  rcases List.mem_cons.mp hln with h | h
  · subst h; exact ⟨by decide, by decide⟩
  · rcases List.mem_append.mp h with h | h
    · have := List.eq_of_mem_replicate h
      subst this
      exact ⟨by decide, by decide⟩
    · simp at h
      subst h
      exact ⟨by decide, by decide⟩

/-- The big OCR text splits back into its lines. -/
theorem bigOcr_split : splitLines bigOcrText = bigOcrLines :=
  splitLines_join bigOcrLines (by rw [bigOcrLines]; exact List.cons_ne_nil _ _) bigOcr_lines_ok

/-- Stripping and blank-filtering leaves the fixture lines unchanged. -/
theorem bigOcr_clean : ((splitLines bigOcrText).map pstrip).filter (· ≠ "") = bigOcrLines := by
  rw [bigOcr_split, bigOcrLines]
  have h1 : pstrip "R0001" = "R0001" := by decide
  have h2 : pstrip "x" = "x" := by decide
  have h3 : pstrip "987654321098" = "987654321098" := by decide
  simp only [List.map_cons, List.map_append, List.map_replicate, h1, h2, h3,
    List.map_nil, List.filter_cons, List.filter_append, List.filter_replicate]
  rw [if_pos (show (decide ("R0001" ≠ "")) = true from by decide)]
  rw [if_pos (show (decide ("x" ≠ "")) = true from by decide)]
  rw [if_pos (show (decide ("987654321098" ≠ "")) = true from by decide)]
  rw [List.filter_nil]

/-- The fixture contains exactly one identifier, on line 0. -/
theorem bigOcr_rids :
    (bigOcrLines.enum).flatMap (fun li => (scanRids li.2.toList).map ((·, li.1))) =
      [("R0001", 0)] := by
  rw [bigOcrLines]
  rw [show List.enum ("R0001" :: (List.replicate 998 "x" ++ ["987654321098"]))
      = (0, "R0001") :: List.enumFrom 1 (List.replicate 998 "x" ++ ["987654321098"]) from rfl]
  rw [List.flatMap_cons, List.enumFrom_append, List.flatMap_append,
      flatMap_enumFrom_replicate _ "x" (fun i => by rw [show scanRids "x".toList = [] from by decide]; rfl)]
  rw [List.length_replicate]
  decide

/-- The fixture contains exactly one tracking token, on line 999. -/
theorem bigOcr_nums :
    (bigOcrLines.enum).flatMap (fun li => (scanNums li.2.toList).map ((·, li.1))) =
      [("987654321098", 999)] := by
  rw [bigOcrLines]
  rw [show List.enum ("R0001" :: (List.replicate 998 "x" ++ ["987654321098"]))
      = (0, "R0001") :: List.enumFrom 1 (List.replicate 998 "x" ++ ["987654321098"]) from rfl]
  rw [List.flatMap_cons, List.enumFrom_append, List.flatMap_append,
      flatMap_enumFrom_replicate _ "x" (fun i => by rw [show scanNums "x".toList = [] from by decide]; rfl)]
  rw [List.length_replicate]
  decide

/-- C6 counterexample: on a text whose only identifier and only (unused)
tracking token sit 999 non-blank lines apart, `_pair_ids_with_numbers`
produces no pair at all — both become leftovers — contradicting the claim
that every identifier is paired with the not-yet-used token of smallest
line-index distance (the loop's best-distance sentinel 999 caps the search). -/
theorem C6_counterexample :
    pairIdsWithNumbers bigOcrText =
      ([], ["R0001｜未找到 12 碼單號", "未配對單號：987654321098"]) := by
  have hne : bigOcrText ≠ "" := by
    intro habs
    have h0 := bigOcr_split
    rw [habs] at h0
    rw [show splitLines "" = [] from rfl, bigOcrLines] at h0
    exact List.noConfusion h0
  unfold pairIdsWithNumbers
  rw [if_neg hne]
  simp only [bigOcr_clean, bigOcr_rids, bigOcr_nums]
  decide


/-- Invariant of the selection loop of `_pair_ids_with_numbers`: the running
best is unused with distance equal to the running bound (strictly below the
999 sentinel), and the final selection is an unused minimal-distance token
below the sentinel — or no unused token is below the sentinel. -/
theorem chooseNumGo_spec (used : List (String × Nat)) (li : Nat) :
    ∀ (l : List (String × Nat)) (best : Option (String × Nat)) (bd : Nat),
      bd ≤ 999 →
      (∀ nl, best = some nl →
        used.contains nl = false ∧ lineDist nl.2 li = bd ∧ bd < 999) →
      (best = none → bd = 999) →
      (match chooseNumGo used li l best bd with
       | some res =>
         used.contains res = false ∧ lineDist res.2 li ≤ bd ∧
         lineDist res.2 li < 999 ∧ (res ∈ l ∨ best = some res) ∧
         ∀ m ∈ l, used.contains m = false → lineDist res.2 li ≤ lineDist m.2 li
       | none =>
         best = none ∧ ∀ m ∈ l, used.contains m = false → 999 ≤ lineDist m.2 li) := by
  intro l
  induction l with
  | nil =>
    intro best bd hbd h2 h3
    rw [chooseNumGo]
    cases best with
    | none => exact ⟨rfl, by simp⟩
    | some nl =>
      obtain ⟨hc, hdist, hlt⟩ := h2 nl rfl
      exact ⟨hc, by omega, by omega, Or.inr rfl, by simp⟩
  | cons m t ih =>
    intro best bd hbd h2 h3
    rw [chooseNumGo]
    by_cases hu : used.contains m
    · rw [if_pos hu]
      have := ih best bd hbd h2 h3
      revert this
      cases hres : chooseNumGo used li t best bd with
      | some res =>
        intro h
        refine ⟨h.1, h.2.1, h.2.2.1, ?_, ?_⟩
        · rcases h.2.2.2.1 with h1 | h1
          · exact Or.inl (List.mem_cons_of_mem _ h1)
          · exact Or.inr h1
        · intro m2 hm2 hcm2
          rcases List.mem_cons.mp hm2 with h1 | h1
          · subst h1; rw [hu] at hcm2; exact absurd hcm2 (by simp)
          · exact h.2.2.2.2 m2 h1 hcm2
      | none =>
        intro h
        refine ⟨h.1, ?_⟩
        intro m2 hm2 hcm2
        rcases List.mem_cons.mp hm2 with h1 | h1
        · subst h1; rw [hu] at hcm2; exact absurd hcm2 (by simp)
        · exact h.2 m2 h1 hcm2
    · rw [if_neg hu]
      by_cases hd : lineDist m.2 li < bd
      · rw [if_pos hd]
        have := ih (some m) (lineDist m.2 li) (by omega)
          (fun nl hnl => by
            cases hnl
            exact ⟨by simpa using hu, rfl, by omega⟩)
          (by intro h; cases h)
        revert this
        cases hres : chooseNumGo used li t (some m) (lineDist m.2 li) with
        | some res =>
          intro h
          refine ⟨h.1, by omega, h.2.2.1, ?_, ?_⟩
          · rcases h.2.2.2.1 with h1 | h1
            · exact Or.inl (List.mem_cons_of_mem _ h1)
            · simp at h1; exact Or.inl (by simp [h1])
          · intro m2 hm2 hcm2
            rcases List.mem_cons.mp hm2 with h1 | h1
            · subst h1; exact h.2.1
            · exact h.2.2.2.2 m2 h1 hcm2
        | none =>
          intro h
          exact absurd h.1 (by simp)
      · rw [if_neg hd]
        have := ih best bd hbd h2 h3
        revert this
        cases hres : chooseNumGo used li t best bd with
        | some res =>
          intro h
          refine ⟨h.1, h.2.1, h.2.2.1, ?_, ?_⟩
          · rcases h.2.2.2.1 with h1 | h1
            · exact Or.inl (List.mem_cons_of_mem _ h1)
            · exact Or.inr h1
          · intro m2 hm2 hcm2
            rcases List.mem_cons.mp hm2 with h1 | h1
            · subst h1; omega
            · exact h.2.2.2.2 m2 h1 hcm2
        | none =>
          intro h
          refine ⟨h.1, ?_⟩
          intro m2 hm2 hcm2
          rcases List.mem_cons.mp hm2 with h1 | h1
          · subst h1
            have : bd = 999 := h3 h.1
            omega
          · exact h.2 m2 h1 hcm2

/-- C6 (amended): the two examples of the claim hold, and each identifier is
paired with the not-yet-used tracking token of smallest line-index distance
*provided that distance is below 999* (the loop's initial best-distance
sentinel); an identifier whose every unused token is at distance ≥ 999 is
left over even though unused tokens exist. -/
theorem C6_greedy_pairing_amended :
    (pairIdsWithNumbers "R0001\n123456789012\nR0002\n987654321098" =
      ([("R0001", "123456789012"), ("R0002", "987654321098")], []))
    ∧ (pairIdsWithNumbers "R0001" = ([], ["R0001｜未找到 12 碼單號"]))
    ∧ (∀ (nums used : List (String × Nat)) (li : Nat) (nl : String × Nat),
        chooseNum nums used li = some nl →
        nl ∈ nums ∧ used.contains nl = false ∧ lineDist nl.2 li < 999 ∧
        ∀ m ∈ nums, used.contains m = false → lineDist nl.2 li ≤ lineDist m.2 li)
    ∧ (∀ (nums used : List (String × Nat)) (li : Nat),
        chooseNum nums used li = none →
        ∀ m ∈ nums, used.contains m = false → 999 ≤ lineDist m.2 li) := by
  refine ⟨by decide, by decide, ?_, ?_⟩
  · intro nums used li nl h
    have e : chooseNumGo used li nums none 999 = some nl := h
    have h2 := chooseNumGo_spec used li nums none 999 (by omega)
      (by intro nl2 h2; cases h2) (fun _ => rfl)
    rw [e] at h2
    obtain ⟨a, b, c, d, e2⟩ := h2
    rcases d with d | d
    · exact ⟨d, a, c, e2⟩
    · cases d
  · intro nums used li h
    have e : chooseNumGo used li nums none 999 = none := h
    have h2 := chooseNumGo_spec used li nums none 999 (by omega)
      (by intro nl2 h2; cases h2) (fun _ => rfl)
    rw [e] at h2
    exact h2.2

/-- Witness for the amended C6: the nearer of two unused tokens is selected. -/
theorem C6_greedy_pairing_amended_witness :
    ("111111111111", 1) ∈ [("111111111111", (1 : Nat)), ("222222222222", 3)] ∧
    ([] : List (String × Nat)).contains ("111111111111", 1) = false ∧
    lineDist 1 0 < 999 ∧
    ∀ m ∈ [("111111111111", (1 : Nat)), ("222222222222", 3)],
      ([] : List (String × Nat)).contains m = false →
      lineDist 1 0 ≤ lineDist m.2 0 :=
  C6_greedy_pairing_amended.2.2.1 [("111111111111", 1), ("222222222222", 3)] [] 0
    ("111111111111", 1) (by decide)

/-- A nonempty digit-run scan implies a digit in the input or a pending run. -/
theorem digitRunsGo_digit : ∀ (cs acc : List Char),
    digitRunsGo cs acc ≠ [] → (∃ c ∈ cs, c.isDigit = true) ∨ acc ≠ [] := by
  intro cs
  induction cs with
  | nil =>
    intro acc h
    rw [digitRunsGo] at h
    by_cases ha : acc.isEmpty
    · rw [if_pos ha] at h; exact absurd rfl h
    · right; simpa using ha
  | cons c t ih =>
    intro acc h
    rw [digitRunsGo] at h
    by_cases hd : c.isDigit
    · left; exact ⟨c, by simp, hd⟩
    · rw [if_neg hd] at h
      by_cases ha : acc.isEmpty
      · rw [if_pos ha] at h
        rcases ih [] h with h1 | h1
        · left; obtain ⟨d, hd1, hd2⟩ := h1; exact ⟨d, by simp [hd1], hd2⟩
        · exact absurd rfl h1
      · right; simpa using ha

/-- A string with nonempty digitRuns contains a digit character. -/
theorem digitRuns_digit (s : String) (h : digitRuns s ≠ []) :
    ∃ c ∈ s.toList, c.isDigit = true := by
  rcases digitRunsGo_digit s.toList [] h with h1 | h1
  · exact h1
  · exact absurd rfl h1

/-- Lower-casing leaves digit characters unchanged. -/
theorem pyLowerChar_digit (c : Char) (h : c.isDigit = true) : pyLowerChar c = c := by
  rw [pyLowerChar, if_neg]
  simp only [Char.isDigit, Bool.and_eq_true, decide_eq_true_eq] at h
  intro hx
  rw [Bool.and_eq_true, decide_eq_true_eq, decide_eq_true_eq] at hx
  have d1 : c.toNat ≤ ('9').toNat := h.2
  have d3 : ('A').toNat ≤ c.toNat := hx.1
  have e1 : ('9').toNat = 57 := rfl
  have e2 : ('A').toNat = 65 := rfl
  omega

/-- Digit characters count as word characters. -/
theorem pyWordChar_digit (c : Char) (h : c.isDigit = true) : pyWordChar c = true := by
  simp [pyWordChar, Char.isAlphanum, h]

/-- Normalization of a digit-bearing string is nonempty. -/
theorem normalize_ne_empty_of_digit (s : String) (c : Char)
    (hm : c ∈ s.toList) (hd : c.isDigit = true) : normalizeForMatch s ≠ "" := by
  rw [normalizeForMatch]
  intro habs
  have hdata : ((s.toList.map pyLowerChar).filter pyWordChar) = [] :=
    congrArg String.data habs
  have hcm : c ∈ (s.toList.map pyLowerChar).filter pyWordChar := by
    rw [List.mem_filter]
    constructor
    · have := List.mem_map_of_mem pyLowerChar hm
      rwa [pyLowerChar_digit c hd] at this
    · exact pyWordChar_digit c hd
  rw [hdata] at hcm
  exact absurd hcm (by simp)

/-- C5: with a digit-bearing token that matches no alias exactly and shares
no digit run with any alias of any (enabled) catalog entry, resolution is
NotFound — the resolver never falls back to the un-narrowed candidate set;
in particular `go6` resolves exactly to Book 6 on the spec's catalog. -/
theorem C5_digit_narrowing :
    (∀ (idx : List BookEntry) (input : String),
      digitRuns input ≠ [] →
      (∀ b ∈ idx, ∀ al ∈ b.aliases, al.norm ≠ normalizeForMatch input) →
      (∀ b ∈ idx, ∀ al ∈ b.aliases, ∀ d ∈ digitRuns input, d ∉ digitRuns al.norm) →
      resolveBookName idx input = .nf)
    ∧ resolveBookName demoCatalog56 "go6" = .res "Book 6" "exact" := by
  constructor
  · intro idx input hdig hex hnar
    obtain ⟨c, hcm, hcd⟩ := digitRuns_digit input hdig
    have hsrc : normalizeForMatch input ≠ "" := normalize_ne_empty_of_digit input c hcm hcd
    have hexact : exactFind idx (normalizeForMatch input) = none := by
      rw [exactFind, List.findSome?_eq_none]
      intro b hb
      rw [if_neg]
      rw [Bool.not_eq_true, List.any_eq_false]
      intro al hal
      simp only [Bool.not_eq_true, decide_eq_false_iff_not]
      exact hex b hb al hal
    have hnarrow : idx.filter (sharesDigit (digitRuns input)) = [] := by
      rw [List.filter_eq_nil]
      intro b hb
      rw [Bool.not_eq_true, sharesDigit, List.any_eq_false]
      intro al hal
      rw [Bool.not_eq_true, List.any_eq_false]
      intro d hd
      rw [Bool.not_eq_true]
      have hthis := hnar b hb al hal d hd
      rw [← Bool.not_eq_true]
      intro hcont
      exact hthis (List.elem_iff.mp hcont)
    have hie : (digitRuns input).isEmpty = false := by
      cases h : digitRuns input with
      | nil => exact absurd h hdig
      | cons a t => rfl
    rw [resolveBookName]
    rw [if_neg hsrc, hexact]
    simp only [hie, Bool.not_false, if_neg, Bool.false_eq_true, ite_false, hnarrow,
      List.isEmpty_nil, Bool.and_true, ite_true]
  · decide


/-- C5 witness: on the spec catalog, the digit-bearing token go7 (digit run 7,
shared with no alias, no exact alias match) resolves to NotFound, while go6
resolves exactly to Book 6. -/
theorem C5_digit_narrowing_witness :
    resolveBookName demoCatalog56 "go7" = .nf
    ∧ resolveBookName demoCatalog56 "go6" = .res "Book 6" "exact" :=
  ⟨C5_digit_narrowing.1 demoCatalog56 "go7" (by decide) (by decide) (by decide),
   C5_digit_narrowing.2⟩

theorem genNextRecordId_ne_empty (col : List String) : genNextRecordId col ≠ "" :=
  stringMkNeEmpty _ _

/-- With a truthy forced record id, the built row does not depend on the
sheet passed to `buildInsertRow`. -/
theorem buildInsertRow_forced (zipT : List (String × String)) (sh sh2 : List Row)
    (data : ParsedOrder) (who now rid : String) (fb : Option String)
    (hrid : rid ≠ "") :
    buildInsertRow zipT sh data who now (some rid) fb
      = buildInsertRow zipT sh2 data who now (some rid) fb := by
  rw [buildInsertRow, buildInsertRow]
  have h1 : optTruthy (some rid) = true := by
    rw [optTruthy]; exact decide_eq_true hrid
  rw [h1]
  simp

/-- Folding head-insertions of rows that do not depend on the accumulator
prepends the reversed mapped list. -/
theorem foldlInsertFixed (g : List Row → String → Row) (f : String → Row)
    (hg : ∀ sh bk, g sh bk = f bk) :
    ∀ (l : List String) (sheet : List Row),
      l.foldl (fun sh bk => insertRowTop sh (g sh bk)) sheet
        = (l.map f).reverse ++ sheet := by
  intro l
  induction l with
  | nil => intro sheet; simp
  | cons a t ih =>
    intro sheet
    rw [List.foldl_cons, List.map_cons, List.reverse_cons, List.append_assoc]
    rw [ih]
    rw [insertRowTop, hg]
    rfl

/-- `filterMap` keeps the length when the function is total on the list. -/
theorem filterMap_all_some {α β : Type} (f : α → Option β) (l : List α)
    (h : ∀ x ∈ l, ∃ y, f x = some y) : (l.filterMap f).length = l.length := by
  induction l with
  | nil => rfl
  | cons a t ih =>
    obtain ⟨y, hy⟩ := h a (by simp)
    rw [List.filterMap_cons, hy, List.length_cons,
      ih (fun x hx => h x (by simp [hx]))]
    rfl


/-- The `formal_list` of `_handle_new_order`: resolved titles of the split
book tokens, in user order. -/
def titlesOf (catalog : List BookEntry) (text : String) : List String :=
  (splitBooks ((parseNewOrderText text).1.bookRaw.getD "")).filterMap
    (fun tok => match resolveBookName catalog tok with | .res t _ => some t | _ => none)

/-- The row `_handle_new_order` inserts for one resolved book title, with
the shared record id generated from the initial sheet. -/
def newRowOf (zipT : List (String × String)) (clock : Clock) (st : BotState)
    (display text : String) (bk : String) : Row :=
  buildInsertRow zipT st.sheet (parseNewOrderText text).1 display clock.nowMin
    (some (genNextRecordId (ridCol st.sheet))) (some bk)

/-- The book column of a built row is exactly the forced book value. -/
theorem buildInsertRow_book (zipT : List (String × String)) (sh : List Row)
    (data : ParsedOrder) (who now : String) (fr : Option String) (bk : String) :
    (buildInsertRow zipT sh data who now fr (some bk)).book = bk := by
  rw [buildInsertRow]
  by_cases h : bk = ""
  · subst h
    simp [optTruthy]
  · have : optTruthy (some bk) = true := by rw [optTruthy]; exact decide_eq_true h
    simp [this]

/-- The record-id column of a built row is the truthy forced id. -/
theorem buildInsertRow_rid (zipT : List (String × String)) (sh : List Row)
    (data : ParsedOrder) (who now rid : String) (fb : Option String)
    (hrid : rid ≠ "") :
    (buildInsertRow zipT sh data who now (some rid) fb).rid = rid := by
  rw [buildInsertRow]
  have h1 : optTruthy (some rid) = true := by rw [optTruthy]; exact decide_eq_true hrid
  simp [h1]

/-- `foldl` form of head-insertion with an accumulator-independent step. -/
theorem foldlInsertFixedF (F : List Row → String → List Row) (f : String → Row)
    (hF : ∀ sh bk, F sh bk = f bk :: sh) :
    ∀ (l : List String) (sheet : List Row),
      l.foldl F sheet = (l.map f).reverse ++ sheet := by
  intro l
  induction l with
  | nil => intro sheet; simp
  | cons a t ih =>
    intro sheet
    rw [List.foldl_cons, List.map_cons, List.reverse_cons, List.append_assoc, ih, hF]
    rfl

/-- C2: a create-order whose parse reports no errors, whose book field
splits into at least one token, and whose tokens all resolve, writes exactly
one row per token at the top of the sheet; the new block reads in the user's
original book order, every new row carries the single record id generated
from the initial sheet, and the book columns are the resolved titles. -/
theorem C2_create_order_batch (catalog : List BookEntry)
    (zipT : List (String × String)) (clock : Clock) (st : BotState)
    (display text : String)
    (hpe : (parseNewOrderText text).2 = [])
    (htok : splitBooks ((parseNewOrderText text).1.bookRaw.getD "") ≠ [])
    (hall : ∀ tok ∈ splitBooks ((parseNewOrderText text).1.bookRaw.getD ""),
      (match resolveBookName catalog tok with
       | .res _ _ => true | _ => false) = true) :
    (handleNewOrder catalog zipT clock st display text).1.sheet
      = (titlesOf catalog text).map (newRowOf zipT clock st display text) ++ st.sheet
    ∧ (titlesOf catalog text).length
        = (splitBooks ((parseNewOrderText text).1.bookRaw.getD "")).length
    ∧ ((titlesOf catalog text).map (newRowOf zipT clock st display text)).map Row.rid
        = (titlesOf catalog text).map (fun _ => genNextRecordId (ridCol st.sheet))
    ∧ ((titlesOf catalog text).map (newRowOf zipT clock st display text)).map Row.book
        = titlesOf catalog text := by
  have hrid : genNextRecordId (ridCol st.sheet) ≠ "" := genNextRecordId_ne_empty _
  refine ⟨?_, ?_, ?_, ?_⟩
  · rw [handleNewOrder]
    rw [if_neg (by rw [hpe]; exact fun h => h rfl)]
    have hre : (splitBooks ((parseNewOrderText text).1.bookRaw.getD "")).isEmpty = false := by
      cases h : splitBooks ((parseNewOrderText text).1.bookRaw.getD "") with
      | nil => exact absurd h htok
      | cons a t => rfl
    rw [if_neg (by rw [hre]; exact Bool.false_ne_true)]
    have hamb : ((splitBooks ((parseNewOrderText text).1.bookRaw.getD "")).map
        (fun tok => (tok, resolveBookName catalog tok))).filterMap
        (fun tr => match tr.2 with
          | .amb extra =>
            if !extra.isEmpty then
              some ("「" ++ tr.1 ++ "」可能是：" ++ pyJoin "、" (extra.take 10))
            else none
          | _ => none) = [] := by
      rw [List.filterMap_eq_nil]
      intro tr htr
      rw [List.mem_map] at htr
      obtain ⟨tok, htm, rfl⟩ := htr
      have h := hall tok htm
      revert h
      cases resolveBookName catalog tok <;> intro h <;> first | rfl | exact absurd h (by simp)
    have hnf : ((splitBooks ((parseNewOrderText text).1.bookRaw.getD "")).map
        (fun tok => (tok, resolveBookName catalog tok))).filterMap
        (fun tr => match tr.2 with
          | .res _ _ => none
          | .amb extra => if extra.isEmpty then some ("找不到書名：" ++ tr.1) else none
          | .nf => some ("找不到書名：" ++ tr.1)) = [] := by
      rw [List.filterMap_eq_nil]
      intro tr htr
      rw [List.mem_map] at htr
      obtain ⟨tok, htm, rfl⟩ := htr
      have h := hall tok htm
      revert h
      cases resolveBookName catalog tok <;> intro h <;> first | rfl | exact absurd h (by simp)
    simp only [hamb, hnf, List.isEmpty_nil, Bool.not_true, Bool.false_eq_true, if_false]
    rw [foldlInsertFixedF
      (fun sh bk => insertRowTop sh (buildInsertRow zipT sh (parseNewOrderText text).1
        display clock.nowMin (some (genNextRecordId (ridCol st.sheet))) (some bk)))
      (newRowOf zipT clock st display text)
      (fun sh bk => by
        show insertRowTop sh (buildInsertRow zipT sh (parseNewOrderText text).1
            display clock.nowMin (some (genNextRecordId (ridCol st.sheet))) (some bk))
          = newRowOf zipT clock st display text bk :: sh
        rw [insertRowTop,
          buildInsertRow_forced zipT sh st.sheet (parseNewOrderText text).1
            display clock.nowMin (genNextRecordId (ridCol st.sheet)) (some bk) hrid]
        rfl)]
    rw [List.map_reverse, List.reverse_reverse, List.filterMap_map]
    rfl
  · rw [titlesOf]
    apply filterMap_all_some
    intro tok htm
    have h := hall tok htm
    revert h
    cases resolveBookName catalog tok with
    | res t k => intro h; exact ⟨t, rfl⟩
    | amb e => intro h; exact absurd h (by simp)
    | nf => intro h; exact absurd h (by simp)
  · rw [List.map_map]
    apply List.map_congr_left
    intro bk hbk
    show (newRowOf zipT clock st display text bk).rid = genNextRecordId (ridCol st.sheet)
    rw [newRowOf]
    exact buildInsertRow_rid _ _ _ _ _ _ _ hrid
  · rw [List.map_map]
    have hb : ∀ bk ∈ titlesOf catalog text,
        (Row.book ∘ newRowOf zipT clock st display text) bk = id bk := by
      intro bk hbk
      show (newRowOf zipT clock st display text bk).book = bk
      rw [newRowOf]
      exact buildInsertRow_book _ _ _ _ _ _ _
    rw [List.map_congr_left hb, List.map_id]


/-- C2 witness: the book list `A, B, C` yields three rows reading
`[A, B, C]` top-to-bottom under one generated record id. -/
theorem C2_create_order_batch_witness :
    titlesOf demoCatalogABC demoNewOrderText = ["A", "B", "C"]
    ∧ ((handleNewOrder demoCatalogABC demoZipTaipei demoClock ⟨[], [], [], []⟩
          "王哥" demoNewOrderText).1.sheet
        = (titlesOf demoCatalogABC demoNewOrderText).map
            (newRowOf demoZipTaipei demoClock ⟨[], [], [], []⟩ "王哥" demoNewOrderText)
          ++ []
      ∧ (titlesOf demoCatalogABC demoNewOrderText).length
          = (splitBooks ((parseNewOrderText demoNewOrderText).1.bookRaw.getD "")).length
      ∧ ((titlesOf demoCatalogABC demoNewOrderText).map
            (newRowOf demoZipTaipei demoClock ⟨[], [], [], []⟩ "王哥" demoNewOrderText)).map
            Row.rid
          = (titlesOf demoCatalogABC demoNewOrderText).map
              (fun _ => genNextRecordId (ridCol ([] : List Row)))
      ∧ ((titlesOf demoCatalogABC demoNewOrderText).map
            (newRowOf demoZipTaipei demoClock ⟨[], [], [], []⟩ "王哥" demoNewOrderText)).map
            Row.book
          = titlesOf demoCatalogABC demoNewOrderText) :=
  ⟨by decide,
   C2_create_order_batch demoCatalogABC demoZipTaipei demoClock ⟨[], [], [], []⟩
     "王哥" demoNewOrderText (by decide) (by decide) (by decide)⟩

/-- A character list is a prefix of itself followed by anything. -/
theorem startsWithList_append (p r : List Char) : startsWithList (p ++ r) p = true := by
  induction p with
  | nil => cases r <;> rfl
  | cons c cs ih => simp [startsWithList, ih]

/-- A string starts with itself followed by any suffix. -/
theorem strStarts_append (p t : String) : strStarts (p ++ t) p = true :=
  startsWithList_append p.toList t.toList

set_option maxRecDepth 8000 in
set_option maxHeartbeats 1000000 in
/-- C4 counterexample: an order whose only book token `abcdx` is ambiguous
(candidates Beta, Alpha) makes the dispatcher reply the ambiguity error and
leave the state — in particular the pending store — completely unchanged; no
BookDisambiguation pending is created, and the follow-up reply `1` selects
nothing (it falls through to no response on the unchanged empty state). -/
theorem C4_counterexample :
    handleTextMessage demoCatalogAB demoZipTaipei demoClock true ⟨[], [], [], []⟩
        "U1" "王哥" demoAmbText
      = (⟨[], [], [], []⟩, some "❗ 書名不夠明確：\n「abcdx」可能是：Beta、Alpha")
    ∧ resolveBookName demoCatalogAB "abcdx" = .amb ["Beta", "Alpha"]
    ∧ handleTextMessage demoCatalogAB demoZipTaipei demoClock true ⟨[], [], [], []⟩
        "U1" "王哥" "1"
      = (⟨[], [], [], []⟩, none) := by
  refine ⟨?_, ?_, ?_⟩ <;> decide

set_option maxHeartbeats 1000000 in
/-- C4 (amended): whenever a book token of a well-parsed create-order
resolves as ambiguous with a nonempty candidate list, `_handle_new_order`
replies a message starting with the ambiguity header and returns the state
unchanged — it never stores a pending disambiguation. -/
theorem C4_ambiguity_replies_only (catalog : List BookEntry)
    (zipT : List (String × String)) (clock : Clock) (st : BotState)
    (display text tok : String) (cands : List String)
    (hpe : (parseNewOrderText text).2 = [])
    (htm : tok ∈ splitBooks ((parseNewOrderText text).1.bookRaw.getD ""))
    (hres : resolveBookName catalog tok = .amb cands) (hc : cands ≠ []) :
    ∃ msg, handleNewOrder catalog zipT clock st display text = (st, some msg)
      ∧ strStarts msg "❗ 書名不夠明確：" = true := by
  rw [handleNewOrder]
  rw [if_neg (by rw [hpe]; exact fun h => h rfl)]
  have htokne : splitBooks ((parseNewOrderText text).1.bookRaw.getD "") ≠ [] := by
    intro h
    rw [h] at htm
    exact absurd htm (by simp)
  have hre : (splitBooks ((parseNewOrderText text).1.bookRaw.getD "")).isEmpty = false := by
    cases h : splitBooks ((parseNewOrderText text).1.bookRaw.getD "") with
    | nil => exact absurd h htokne
    | cons a t => rfl
  rw [if_neg (by rw [hre]; exact Bool.false_ne_true)]
  have hcne : (!cands.isEmpty) = true := by
    cases h : cands with
    | nil => exact absurd h hc
    | cons a t => rfl
  have hmem : (tok, resolveBookName catalog tok)
      ∈ (splitBooks ((parseNewOrderText text).1.bookRaw.getD "")).map
        (fun tk => (tk, resolveBookName catalog tk)) :=
    List.mem_map_of_mem _ htm
  have hne : ((splitBooks ((parseNewOrderText text).1.bookRaw.getD "")).map
      (fun tk => (tk, resolveBookName catalog tk))).filterMap
      (fun tr => match tr.2 with
        | .amb extra =>
          if !extra.isEmpty then
            some ("「" ++ tr.1 ++ "」可能是：" ++ pyJoin "、" (extra.take 10))
          else none
        | _ => none) ≠ [] := by
    intro h0
    rw [List.filterMap_eq_nil] at h0
    have h1 := h0 _ hmem
    rw [show (tok, resolveBookName catalog tok).2 = resolveBookName catalog tok from rfl] at h1
    rw [hres] at h1
    simp only [hcne, if_true] at h1
    exact Option.noConfusion h1
  have hbe : (((splitBooks ((parseNewOrderText text).1.bookRaw.getD "")).map
      (fun tk => (tk, resolveBookName catalog tk))).filterMap
      (fun tr => match tr.2 with
        | .amb extra =>
          if !extra.isEmpty then
            some ("「" ++ tr.1 ++ "」可能是：" ++ pyJoin "、" (extra.take 10))
          else none
        | _ => none)).isEmpty = false := by
    cases h : ((splitBooks ((parseNewOrderText text).1.bookRaw.getD "")).map
      (fun tk => (tk, resolveBookName catalog tk))).filterMap
      (fun tr => match tr.2 with
        | .amb extra =>
          if !extra.isEmpty then
            some ("「" ++ tr.1 ++ "」可能是：" ++ pyJoin "、" (extra.take 10))
          else none
        | _ => none) with
    | nil => exact absurd h hne
    | cons a t => rfl
  refine ⟨"❗ 書名不夠明確：" ++ ("\n" ++ pyJoin "\n"
    (((splitBooks ((parseNewOrderText text).1.bookRaw.getD "")).map
      (fun tk => (tk, resolveBookName catalog tk))).filterMap
      (fun tr => match tr.2 with
        | .amb extra =>
          if !extra.isEmpty then
            some ("「" ++ tr.1 ++ "」可能是：" ++ pyJoin "、" (extra.take 10))
          else none
        | _ => none))), ?_, ?_⟩
  · simp only [hbe, Bool.not_false, eq_self_iff_true, if_true]
    rfl
  · exact strStarts_append "❗ 書名不夠明確：" ("\n" ++ pyJoin "\n"
      (((splitBooks ((parseNewOrderText text).1.bookRaw.getD "")).map
        (fun tk => (tk, resolveBookName catalog tk))).filterMap
        (fun tr => match tr.2 with
          | .amb extra =>
            if !extra.isEmpty then
              some ("「" ++ tr.1 ++ "」可能是：" ++ pyJoin "、" (extra.take 10))
            else none
          | _ => none)))


/-- C4 witness: the ambiguous order message yields an unchanged state and
an ambiguity-header reply. -/
theorem C4_ambiguity_replies_only_witness :
    ∃ msg, handleNewOrder demoCatalogAB demoZipTaipei demoClock ⟨[], [], [], []⟩
        "王哥" demoAmbText
        = (⟨[], [], [], []⟩, some msg)
      ∧ strStarts msg "❗ 書名不夠明確：" = true :=
  C4_ambiguity_replies_only demoCatalogAB demoZipTaipei demoClock ⟨[], [], [], []⟩
    "王哥" demoAmbText "abcdx" ["Beta", "Alpha"] (by decide) (by decide) (by decide)
    (by decide)

set_option maxRecDepth 8000 in
/-- C3 counterexample: with a staged cancel confirmation, the stray reply
`1` is NOT accepted but also does NOT clear the slot — the state (pending
store included) is returned unchanged — and a later stray `Y` still applies
the old pending cancellation, deleting the staged R0001 rows. -/
theorem C3_counterexample :
    handleTextMessage demoCatalogAB demoZipTaipei demoClock true demoStatePend
        "U1" "王哥" "1"
      = (demoStatePend, none)
    ∧ lookupPend demoStatePend.pending "U1" = some demoPendCancel
    ∧ (handleTextMessage demoCatalogAB demoZipTaipei demoClock true demoStatePend
        "U1" "王哥" "Y").2
      = some "✅ 已刪除整筆寄書（R0001）：王小明 的 A、B"
    ∧ ((handleTextMessage demoCatalogAB demoZipTaipei demoClock true demoStatePend
        "U1" "王哥" "Y").1.sheet.map (fun r => (r.book, r.status)))
      = [("A", "已刪除"), ("B", "已刪除"), ("C", "待處理")] := by
  refine ⟨?_, ?_, ?_, ?_⟩ <;> decide

/-- C3 (amended): with an occupied slot, any input whose stripped upper-case
form is none of Y/N/YES/OK is simply ignored: the handler reports the text
unconsumed and leaves the state — slot included — unchanged (it does not
clear the slot); `N` (case-insensitively) clears the slot and replies 已取消。 -/
theorem C3_pending_gate :
    (∀ (catalog : List BookEntry) (zipT : List (String × String)) (clock : Clock)
       (st : BotState) (uid display text : String) (p : Pend),
      lookupPend st.pending uid = some p →
      pyUpper (pstrip text) ≠ "Y" → pyUpper (pstrip text) ≠ "N" →
      pyUpper (pstrip text) ≠ "YES" → pyUpper (pstrip text) ≠ "OK" →
      handlePendingAnswer catalog zipT clock st uid display text = (false, st, none))
    ∧ (∀ (catalog : List BookEntry) (zipT : List (String × String)) (clock : Clock)
        (st : BotState) (uid display text : String) (p : Pend),
      lookupPend st.pending uid = some p →
      pyUpper (pstrip text) = "N" →
      handlePendingAnswer catalog zipT clock st uid display text
        = (true, { st with pending := popPend st.pending uid }, some "已取消。")) := by
  constructor
  · intro catalog zipT clock st uid display text p hslot h1 h2 h3 h4
    rw [handlePendingAnswer, hslot]
    have hc : (pyUpper (pstrip text) ≠ "Y" && pyUpper (pstrip text) ≠ "N"
        && pyUpper (pstrip text) ≠ "YES" && pyUpper (pstrip text) ≠ "OK") = true := by
      simp [h1, h2, h3, h4]
    simp only [hc, if_true]
  · intro catalog zipT clock st uid display text p hslot hn
    rw [handlePendingAnswer, hslot]
    have hc : (pyUpper (pstrip text) ≠ "Y" && pyUpper (pstrip text) ≠ "N"
        && pyUpper (pstrip text) ≠ "YES" && pyUpper (pstrip text) ≠ "OK") = false := by
      simp [hn]
    simp only [hc, Bool.false_eq_true, if_false, hn, if_pos]
    rfl


/-- C3 witness: the stray `1` leaves the staged cancel armed; `n` clears
it. -/
theorem C3_pending_gate_witness :
    handlePendingAnswer demoCatalogAB demoZipTaipei demoClock demoStatePend
        "U1" "王哥" "1" = (false, demoStatePend, none)
    ∧ handlePendingAnswer demoCatalogAB demoZipTaipei demoClock demoStatePend
        "U1" "王哥" "n"
      = (true, { demoStatePend with pending := popPend demoStatePend.pending "U1" },
         some "已取消。") :=
  ⟨C3_pending_gate.1 demoCatalogAB demoZipTaipei demoClock demoStatePend "U1" "王哥"
     "1" demoPendCancel (by decide) (by decide) (by decide) (by decide) (by decide),
   C3_pending_gate.2 demoCatalogAB demoZipTaipei demoClock demoStatePend "U1" "王哥"
     "n" demoPendCancel (by decide) (by decide)⟩

/-- C10: when a cancel request matches a latest order whose normalized
creator differs from the requester's (nonempty) display name, the handler
replies the no-permission message and returns the state unchanged — no
sheet row is modified and no pending confirmation is created. -/
theorem C10_cancel_permission (clock : Clock) (st : BotState)
    (uid display text : String) (i : Nat) (r : Row)
    (hfind : findLatestOrder st.sheet (extractCancelTarget text).1
        (extractCancelTarget text).2 clock.since = some (i, r))
    (hdisp : display ≠ "")
    (hne : creatorOf r ≠ display) :
    handleCancelRequest clock st uid display text
      = (st, some "❌ 你沒有刪除權限（請聯繫管理者）") := by
  rw [handleCancelRequest]
  simp only [hfind, if_neg hdisp]
  simp only [if_pos hne]

/-- C10 witness: 李姐 cannot cancel 王哥's order; the state is unchanged. -/
theorem C10_cancel_permission_witness :
    handleCancelRequest demoClock demoState "U1" "李姐" demoCancelText
      = (demoState, some "❌ 你沒有刪除權限（請聯繫管理者）") :=
  C10_cancel_permission demoClock demoState "U1" "李姐" demoCancelText
    2 (demoRow "R0001" "A" "待處理") (by decide) (by decide) (by decide)

/-- Pointwise view of a single in-place row update. -/
theorem modifyIdx_get (i j : Nat) (f : Row → Row) (l : List Row) :
    (modifyIdx i f l).get? j = if i = j then (l.get? j).map f else l.get? j := by
  induction l generalizing i j with
  | nil => simp [modifyIdx]
  | cons x t ih =>
    cases i with
    | zero =>
      cases j with
      | zero => simp [modifyIdx]
      | succ j => simp [modifyIdx]
    | succ i =>
      cases j with
      | zero => simp [modifyIdx]
      | succ j => simpa [modifyIdx] using ih i j

/-- Pointwise view of folding in-place updates over distinct indices. -/
theorem foldl_modifyIdx_get (g : Row → Row) (ids : List Nat) (sheet : List Row)
    (hnd : (ids.map (fun i => i - 2)).Nodup) (j : Nat) :
    (ids.foldl (fun sh ri => modifyIdx (ri - 2) g sh) sheet).get? j
      = if j ∈ ids.map (fun i => i - 2) then (sheet.get? j).map g
        else sheet.get? j := by
  induction ids generalizing sheet with
  | nil => simp
  | cons a t ih =>
    rw [List.map_cons, List.nodup_cons] at hnd
    rw [List.foldl_cons, ih _ hnd.2, List.map_cons]
    by_cases hj : j ∈ t.map (fun i => i - 2)
    · have hne : ¬(a - 2 = j) := fun h => hnd.1 (h ▸ hj)
      rw [if_pos hj, if_pos (List.mem_cons.mpr (Or.inr hj)), modifyIdx_get, if_neg hne]
    · rw [if_neg hj, modifyIdx_get]
      by_cases he : a - 2 = j
      · rw [if_pos he, if_pos (List.mem_cons.mpr (Or.inl he.symm))]
      · rw [if_neg he,
          if_neg (fun h => (List.mem_cons.mp h).elim (fun h1 => he h1.symm) hj)]

/-- Membership in an ascending insertion. -/
theorem mem_insNatAsc (x y : Nat) (l : List Nat) :
    y ∈ insNatAsc x l ↔ y = x ∨ y ∈ l := by
  induction l with
  | nil => simp [insNatAsc]
  | cons a t ih =>
    rw [insNatAsc]
    by_cases h : x ≤ a
    · simp [h]
    · rw [if_neg h]
      rw [List.mem_cons, ih, List.mem_cons]
      tauto

/-- Sorting keeps membership. -/
theorem mem_sortNatAsc (y : Nat) (l : List Nat) :
    y ∈ sortNatAsc l ↔ y ∈ l := by
  rw [sortNatAsc]
  induction l with
  | nil => simp
  | cons a t ih =>
    rw [List.foldr_cons, mem_insNatAsc, List.mem_cons, ih]

/-- Ascending insertion is a permutation of cons. -/
theorem perm_insNatAsc (x : Nat) (l : List Nat) :
    (insNatAsc x l).Perm (x :: l) := by
  induction l with
  | nil => simp [insNatAsc]
  | cons a t ih =>
    rw [insNatAsc]
    by_cases h : x ≤ a
    · rw [if_pos h]
    · rw [if_neg h]
      exact (ih.cons a).trans (List.Perm.swap x a t)

/-- `sortNatAsc` permutes its input. -/
theorem perm_sortNatAsc (l : List Nat) : (sortNatAsc l).Perm l := by
  rw [sortNatAsc]
  induction l with
  | nil => simp
  | cons a t ih =>
    rw [List.foldr_cons]
    exact (perm_insNatAsc a (t.foldr insNatAsc [])).trans (ih.cons a)


/-- Indices surviving an enumerate-filter are at least the start index. -/
theorem enumFilter_lb (P : Row → Bool) :
    ∀ (l : List Row) (n x : Nat),
      x ∈ (((List.enumFrom n l).filter (fun ir => P ir.2)).map (·.1)) → n ≤ x := by
  intro l
  induction l with
  | nil => intro n x h; simp at h
  | cons r t ih =>
    intro n x h
    rw [List.enumFrom_cons] at h
    by_cases hp : P r
    · rw [List.filter_cons_of_pos (by simpa using hp), List.map_cons, List.mem_cons] at h
      rcases h with h | h
      · omega
      · have := ih (n + 1) x h
        omega
    · rw [List.filter_cons_of_neg (by simpa using hp)] at h
      have := ih (n + 1) x h
      omega

/-- Indices surviving an enumerate-filter are strictly increasing. -/
theorem enumFilter_pairwise (P : Row → Bool) :
    ∀ (l : List Row) (n : Nat),
      List.Pairwise (· < ·) (((List.enumFrom n l).filter (fun ir => P ir.2)).map (·.1)) := by
  intro l
  induction l with
  | nil => intro n; simp
  | cons r t ih =>
    intro n
    rw [List.enumFrom_cons]
    by_cases hp : P r
    · rw [List.filter_cons_of_pos (by simpa using hp), List.map_cons]
      refine List.Pairwise.cons ?_ (ih (n + 1))
      intro x hx
      have := enumFilter_lb P t (n + 1) x hx
      omega
    · rw [List.filter_cons_of_neg (by simpa using hp)]
      exact ih (n + 1)

/-- An index survives an enumerate-filter exactly when its row passes. -/
theorem enumFilter_mem (P : Row → Bool) :
    ∀ (l : List Row) (n j : Nat),
      ((j + n) ∈ (((List.enumFrom n l).filter (fun ir => P ir.2)).map (·.1)))
        ↔ (∃ row, l.get? j = some row ∧ P row = true) := by
  intro l
  induction l with
  | nil => intro n j; simp
  | cons r t ih =>
    intro n j
    rw [List.enumFrom_cons]
    cases j with
    | zero =>
      by_cases hp : P r
      · rw [List.filter_cons_of_pos (by simpa using hp), List.map_cons, List.mem_cons]
        simp only [List.get?]
        constructor
        · intro _; exact ⟨r, rfl, hp⟩
        · intro _; exact Or.inl (by omega)
      · rw [List.filter_cons_of_neg (by simpa using hp)]
        simp only [List.get?]
        constructor
        · intro h
          have := enumFilter_lb P t (n + 1) (0 + n) h
          omega
        · intro ⟨row, hr, hpr⟩
          rw [Option.some.injEq] at hr
          exact absurd (hr ▸ hpr) (by simpa using hp)
    | succ j =>
      have harith : j + 1 + n = j + (n + 1) := by omega
      have hmain : (j + (n + 1) ∈ ((List.enumFrom (n + 1) t).filter
          (fun ir => P ir.2)).map (·.1))
          ↔ (∃ row, t.get? j = some row ∧ P row = true) := ih (n + 1) j
      by_cases hp : P r
      · rw [List.filter_cons_of_pos (by simpa using hp), List.map_cons, List.mem_cons]
        simp only [List.get?]
        rw [harith]
        constructor
        · intro h
          rcases h with h | h
          · omega
          · exact hmain.mp h
        · intro h
          exact Or.inr (hmain.mpr h)
      · rw [List.filter_cons_of_neg (by simpa using hp)]
        simp only [List.get?]
        rw [harith]
        exact hmain

/-- Subtracting 2 keeps strictly increasing indices at least 2 distinct. -/
theorem nodup_sub2 (l : List Nat) (hlb : ∀ x ∈ l, 2 ≤ x)
    (hp : List.Pairwise (· < ·) l) : (l.map (fun i => i - 2)).Nodup := by
  induction l with
  | nil => simp
  | cons a t ih =>
    rw [List.map_cons, List.nodup_cons]
    rw [List.pairwise_cons] at hp
    constructor
    · intro hmem
      rw [List.mem_map] at hmem
      obtain ⟨y, hy, heq⟩ := hmem
      have h1 := hp.1 y hy
      have h2 := hlb a (by simp)
      omega
    · exact ih (fun x hx => hlb x (by simp [hx])) hp.2

/-- Membership after subtracting 2 from indices at least 2. -/
theorem mem_sub2 (l : List Nat) (hlb : ∀ x ∈ l, 2 ≤ x) (j : Nat) :
    j ∈ l.map (fun i => i - 2) ↔ (j + 2) ∈ l := by
  constructor
  · intro h
    rw [List.mem_map] at h
    obtain ⟨y, hy, heq⟩ := h
    have := hlb y hy
    have : y = j + 2 := by omega
    exact this ▸ hy
  · intro h
    rw [List.mem_map]
    exact ⟨j + 2, h, by omega⟩


/-- Collected sheet-row numbers start at 2. -/
theorem collectRowsByRid_ids_lb (sheet : List Row) (rid : String) :
    ∀ x ∈ (collectRowsByRid sheet rid).map (·.1), 2 ≤ x :=
  fun x hx => enumFilter_lb (fun row => pstrip row.rid = rid) sheet 2 x hx

/-- Collected sheet-row numbers are strictly increasing. -/
theorem collectRowsByRid_ids_pairwise (sheet : List Row) (rid : String) :
    List.Pairwise (· < ·) ((collectRowsByRid sheet rid).map (·.1)) :=
  enumFilter_pairwise (fun row => pstrip row.rid = rid) sheet 2

/-- A sheet-row number is collected exactly when its row carries the id. -/
theorem collectRowsByRid_ids_mem (sheet : List Row) (rid : String) (j : Nat) :
    (j + 2) ∈ (collectRowsByRid sheet rid).map (·.1)
      ↔ (∃ row, sheet.get? j = some row ∧ (pstrip row.rid = rid)) := by
  have h := enumFilter_mem (fun row => pstrip row.rid = rid) sheet 2 j
  rw [collectRowsByRid]
  rw [h]
  constructor
  · intro ⟨row, h1, h2⟩
    exact ⟨row, h1, by simpa using h2⟩
  · intro ⟨row, h1, h2⟩
    exact ⟨row, h1, by simpa using h2⟩

/-- Pointwise effect of a confirmed cancellation write loop: exactly the
rows whose stripped record id matches are mutated. -/
theorem applyCancelRows_get (sheet : List Row) (rid operator now : String) (j : Nat)
    (row : Row) (hrow : sheet.get? j = some row) :
    (applyCancelRows sheet ((collectRowsByRid sheet rid).map (·.1)) operator now).get? j
      = some (if pstrip row.rid = rid then cancelUpd operator now row else row) := by
  rw [applyCancelRows]
  have hperm : ((sortNatAsc ((collectRowsByRid sheet rid).map (·.1))).map
      (fun i => i - 2)).Perm
      (((collectRowsByRid sheet rid).map (·.1)).map (fun i => i - 2)) :=
    List.Perm.map _ (perm_sortNatAsc _)
  have hnd : (((collectRowsByRid sheet rid).map (·.1)).map (fun i => i - 2)).Nodup :=
    nodup_sub2 _ (collectRowsByRid_ids_lb sheet rid)
      (collectRowsByRid_ids_pairwise sheet rid)
  rw [foldl_modifyIdx_get (cancelUpd operator now) _ sheet (hperm.nodup_iff.mpr hnd) j]
  have hmem : j ∈ (sortNatAsc ((collectRowsByRid sheet rid).map (·.1))).map
        (fun i => i - 2)
      ↔ (pstrip row.rid = rid) := by
    rw [hperm.mem_iff]
    rw [mem_sub2 _ (collectRowsByRid_ids_lb sheet rid) j]
    rw [collectRowsByRid_ids_mem sheet rid j]
    constructor
    · intro ⟨row2, h1, h2⟩
      rw [hrow, Option.some.injEq] at h1
      exact h1 ▸ h2
    · intro h
      exact ⟨row, hrow, h⟩
  by_cases hc : pstrip row.rid = rid
  · rw [if_pos (hmem.mpr hc), if_pos hc, hrow]
    rfl
  · rw [if_neg (fun h => hc (hmem.mp h)), if_neg hc, hrow]


/-- Looking up a freshly staged pending entry returns it. -/
theorem lookupPend_setPend (m : List (String × Pend)) (uid : String) (p : Pend) :
    lookupPend (setPend m uid p) uid = some p := by
  rw [setPend, lookupPend, List.find?_cons_of_pos]
  · rfl
  · simp

/-- Clean pending rows pass the cancellation guard. -/
theorem cancelGuard_none (rows : List (Nat × Row))
    (h : ∀ ir ∈ rows, pstrip ir.2.status = "待處理"
      ∧ ir.2.shipDate = "" ∧ ir.2.tracking = "") :
    cancelGuard rows = none := by
  rw [cancelGuard, List.findSome?_eq_none]
  intro ir hir
  obtain ⟨h1, h2, h3⟩ := h ir hir
  simp [h1, h2, h3]

/-- A shipped row makes the cancellation guard reject with one of its two
messages. -/
theorem cancelGuard_some (rows : List (Nat × Row)) (ir : Nat × Row)
    (hmem : ir ∈ rows) (hship : pstrip ir.2.status = "已託運") :
    ∃ m, cancelGuard rows = some m
      ∧ (m = "❌ 已託運，無法刪除" ∨ m = "❗ 無法處理，請私訊客服。") := by
  induction rows with
  | nil => simp at hmem
  | cons a t ih =>
    rw [cancelGuard, List.findSome?_cons]
    by_cases h1 : pstrip a.2.status = "已託運"
    · refine ⟨"❌ 已託運，無法刪除", ?_, Or.inl rfl⟩
      simp [h1]
    · by_cases h2 : (a.2.shipDate ≠ "" || a.2.tracking ≠ "") = true
      · refine ⟨"❗ 無法處理，請私訊客服。", ?_, Or.inr rfl⟩
        have h2p : a.2.shipDate ≠ "" ∨ a.2.tracking ≠ "" := by simpa using h2
        rcases h2p with h | h <;> simp [h1, h]
      · have hta : ir ∈ t := by
          rcases List.mem_cons.mp hmem with he | ht
          · exact absurd (he ▸ hship) h1
          · exact ht
        obtain ⟨m, hm, hor⟩ := ih hta
        refine ⟨m, ?_, hor⟩
        rw [cancelGuard] at hm
        have h2n : a.2.shipDate = "" ∧ a.2.tracking = "" := by
          constructor <;> by_contra hx <;> simp [hx] at h2
        have hfa : (let stv := pstrip a.2.status
            if stv = "已託運" then some "❌ 已託運，無法刪除"
            else if (a.2.shipDate ≠ "" || a.2.tracking ≠ "") && stv ≠ "已託運" then
              some "❗ 無法處理，請私訊客服。"
            else none) = none := by
          simp [h1, h2n.1, h2n.2]
        rw [hfa]
        exact hm


/-- A failed guard makes the cancel request reply the guard message and
leave the state unchanged. -/
theorem handleCancelRequest_rejects (clock : Clock) (st : BotState)
    (uid display text : String) (i : Nat) (r : Row) (m : String)
    (hfind : findLatestOrder st.sheet (extractCancelTarget text).1
        (extractCancelTarget text).2 clock.since = some (i, r))
    (hdisp : display ≠ "") (hcreator : creatorOf r = display)
    (hguard : cancelGuard (collectRowsByRid st.sheet (pstrip r.rid)) = some m) :
    handleCancelRequest clock st uid display text = (st, some m) := by
  rw [handleCancelRequest]
  simp only [hfind, if_neg hdisp]
  rw [if_neg (fun h => h hcreator)]
  simp only [hguard]

/-- A passed guard stages the `cancel_order` pending confirmation for the
collected rows. -/
theorem handleCancelRequest_stages (clock : Clock) (st : BotState)
    (uid display text : String) (i : Nat) (r : Row)
    (hfind : findLatestOrder st.sheet (extractCancelTarget text).1
        (extractCancelTarget text).2 clock.since = some (i, r))
    (hdisp : display ≠ "") (hcreator : creatorOf r = display)
    (hguard : cancelGuard (collectRowsByRid st.sheet (pstrip r.rid)) = none) :
    handleCancelRequest clock st uid display text
      = ({ st with
             pending := setPend st.pending uid
               (Pend.cancelOrder (pstrip r.rid)
                 ((collectRowsByRid st.sheet (pstrip r.rid)).map (·.1))
                 (pstrip r.stuName)
                 (pyJoin "、" (((collectRowsByRid st.sheet (pstrip r.rid)).filter
                   (fun ir => pstrip ir.2.book ≠ "")).map (fun ir => ir.2.book)))
                 display) },
         some ("請確認是否刪除整筆寄書（同一ID " ++ pstrip r.rid ++ " 共 " ++
           toString (collectRowsByRid st.sheet (pstrip r.rid)).length ++
           " 列）：\n學員：" ++ pstrip r.stuName ++ "\n書名：" ++
           (pyJoin "、" (((collectRowsByRid st.sheet (pstrip r.rid)).filter
             (fun ir => pstrip ir.2.book ≠ "")).map (fun ir => ir.2.book))) ++
           "\n[Y/N]")) := by
  rw [handleCancelRequest]
  simp only [hfind, if_neg hdisp]
  rw [if_neg (fun h => h hcreator)]
  simp only [hguard]


/-- C1: for a permitted cancel request on a located order, (a) if any row
sharing the stripped record id is shipped, the request is rejected with a
guard message and the state is unchanged; (b) if all rows sharing it are
pending (with clean shipping fields, as pending rows are), the confirmed
`Y` answer is accepted and the resulting sheet, read pointwise, applies
`cancelUpd` to exactly the rows whose stripped record id matches and leaves
every other row untouched; (c) `cancelUpd` sets the status to 已刪除 and
appends the audit note. -/
theorem C1_cancel_unit (catalog : List BookEntry) (zipT : List (String × String))
    (clock : Clock) (st : BotState) (uid display text : String)
    (i : Nat) (r : Row)
    (hfind : findLatestOrder st.sheet (extractCancelTarget text).1
        (extractCancelTarget text).2 clock.since = some (i, r))
    (hdisp : display ≠ "") (hcreator : creatorOf r = display) :
    ((∃ ir ∈ collectRowsByRid st.sheet (pstrip r.rid),
        pstrip ir.2.status = "已託運") →
      ∃ m, handleCancelRequest clock st uid display text = (st, some m)
        ∧ (m = "❌ 已託運，無法刪除" ∨ m = "❗ 無法處理，請私訊客服。"))
    ∧ ((∀ ir ∈ collectRowsByRid st.sheet (pstrip r.rid),
          pstrip ir.2.status = "待處理" ∧ ir.2.shipDate = "" ∧ ir.2.tracking = "") →
        (handlePendingAnswer catalog zipT clock
            (handleCancelRequest clock st uid display text).1 uid display "Y").1 = true
        ∧ ∀ j row, st.sheet.get? j = some row →
            (handlePendingAnswer catalog zipT clock
              (handleCancelRequest clock st uid display text).1 uid display
              "Y").2.1.sheet.get? j
              = some (if pstrip row.rid = pstrip r.rid
                  then cancelUpd display clock.nowMin row else row))
    ∧ (∀ op now2 r2, (cancelUpd op now2 r2).status = "已刪除"
        ∧ (cancelUpd op now2 r2).note = appendNote r2.note (delNote now2)) := by
  refine ⟨?_, ?_, ?_⟩
  · intro ⟨ir, hmem, hship⟩
    obtain ⟨m, hm, hor⟩ := cancelGuard_some _ ir hmem hship
    exact ⟨m, handleCancelRequest_rejects clock st uid display text i r m
      hfind hdisp hcreator hm, hor⟩
  · intro hall
    have hguard := cancelGuard_none _ hall
    have hstage1 : (handleCancelRequest clock st uid display text).1
        = { st with
              pending := setPend st.pending uid
                (Pend.cancelOrder (pstrip r.rid)
                  ((collectRowsByRid st.sheet (pstrip r.rid)).map (·.1))
                  (pstrip r.stuName)
                  (pyJoin "、" (((collectRowsByRid st.sheet (pstrip r.rid)).filter
                    (fun ir => pstrip ir.2.book ≠ "")).map (fun ir => ir.2.book)))
                  display) } := by
      rw [handleCancelRequest_stages clock st uid display text i r
        hfind hdisp hcreator hguard]
    rw [hstage1]
    rw [handlePendingAnswer]
    have hlp : lookupPend ({ st with
        pending := setPend st.pending uid
          (Pend.cancelOrder (pstrip r.rid)
            ((collectRowsByRid st.sheet (pstrip r.rid)).map (·.1))
            (pstrip r.stuName)
            (pyJoin "、" (((collectRowsByRid st.sheet (pstrip r.rid)).filter
              (fun ir => pstrip ir.2.book ≠ "")).map (fun ir => ir.2.book)))
            display) } : BotState).pending uid
        = some (Pend.cancelOrder (pstrip r.rid)
            ((collectRowsByRid st.sheet (pstrip r.rid)).map (·.1))
            (pstrip r.stuName)
            (pyJoin "、" (((collectRowsByRid st.sheet (pstrip r.rid)).filter
              (fun ir => pstrip ir.2.book ≠ "")).map (fun ir => ir.2.book)))
            display) :=
      lookupPend_setPend st.pending uid _
    rw [hlp]
    rw [show pyUpper (pstrip "Y") = "Y" from by decide]
    have hY1 : ((decide ¬("Y" = "Y")) && (decide ¬("Y" = "N"))
        && (decide ¬("Y" = "YES")) && (decide ¬("Y" = "OK"))) = false := by decide
    simp only [hY1, Bool.false_eq_true, if_false]
    constructor
    · rfl
    · intro j row hrow
      exact applyCancelRows_get st.sheet (pstrip r.rid) display clock.nowMin j row hrow
  · intro op now2 r2
    exact ⟨rfl, rfl⟩


/-- C1 witness: on the demo sheets, the shipped variant is rejected with a
guard message, and the all-pending variant deletes exactly the two R0001
rows after `Y`. -/
theorem C1_cancel_unit_witness :
    (∃ m, handleCancelRequest demoClock ⟨demoSheetShipped, [], [], []⟩ "U1" "王哥"
        demoCancelText = (⟨demoSheetShipped, [], [], []⟩, some m)
      ∧ (m = "❌ 已託運，無法刪除" ∨ m = "❗ 無法處理，請私訊客服。"))
    ∧ ((handlePendingAnswer demoCatalogAB demoZipTaipei demoClock
          (handleCancelRequest demoClock demoState "U1" "王哥" demoCancelText).1
          "U1" "王哥" "Y").1 = true
      ∧ ∀ j row, demoSheet.get? j = some row →
          (handlePendingAnswer demoCatalogAB demoZipTaipei demoClock
            (handleCancelRequest demoClock demoState "U1" "王哥" demoCancelText).1
            "U1" "王哥" "Y").2.1.sheet.get? j
            = some (if pstrip row.rid = pstrip (demoRow "R0001" "A" "待處理").rid
                then cancelUpd "王哥" demoClock.nowMin row else row)) :=
  ⟨(C1_cancel_unit demoCatalogAB demoZipTaipei demoClock ⟨demoSheetShipped, [], [], []⟩
      "U1" "王哥" demoCancelText 2 (demoRow "R0001" "A" "待處理")
      (by decide) (by decide) (by decide)).1
      ⟨(3, { demoRow "R0001" "B" "已託運" with shipDate := "2025-01-02",
                                               tracking := "123456789012" }),
       by decide, by decide⟩,
   (C1_cancel_unit demoCatalogAB demoZipTaipei demoClock demoState
      "U1" "王哥" demoCancelText 2 (demoRow "R0001" "A" "待處理")
      (by decide) (by decide) (by decide)).2.1
      (by decide)⟩

end LineBot
